import Mathlib

/-!
Verification development for the quotation/invoice back office
(`dashboard/views.py`, `dashboard/services.py`, `quotation/views.py`).

Text is modelled as `List Char` (called `Str` below); Python string
operations (`in`, `replace`, `strip`, `lower`, `split`, `isdigit`,
`startswith`, `endswith`, zero-padded decimal formatting) are embedded as
executable Lean functions mirroring their semantics on the inputs the
program feeds them (ASCII identifiers, template snippets, decimal digits).
-/

/-- Program text: a Python `str` as a list of characters. -/
abbrev Str := List Char

/-- Whitespace recognised by Python `str.strip()` (ASCII subset; the
program only strips spaces/newlines/tabs around template cell text). -/
def isSpaceChar (c : Char) : Bool :=
  c = ' ' || c = '\t' || c = '\n' || c = '\r'

/-- Python `s.strip()`: drop whitespace from both ends. -/
def pyStrip (s : Str) : Str :=
  ((s.dropWhile isSpaceChar).reverse.dropWhile isSpaceChar).reverse

/-- Python `s.lower()` (ASCII case folding, as used on header keywords). -/
def toLowerStr (s : Str) : Str := s.map Char.toLower

/-- Python `needle in hay` substring test. `'' in s` is `True`. -/
def containsSub (hay pat : Str) : Bool :=
  match hay with
  | [] => pat.isEmpty
  | _ :: rest => pat.isPrefixOf hay || containsSub rest pat

/-- Helper for Python `s.replace('', new)`: `new` is inserted after every
character (the leading copy is added by `pyReplace`). -/
def interleaveIns (new : Str) : Str → Str
  | [] => []
  | c :: rest => c :: (new ++ interleaveIns new rest)

/-- Fuel-driven scan for Python `s.replace(old, new)` with non-empty
`old`: replace each non-overlapping occurrence left to right.  One unit
of fuel is spent per examined position, and every step consumes at least
one character, so `s.length` fuel always suffices. -/
def pyReplaceF (old new : Str) : Nat → Str → Str
  | 0, s => s
  | _ + 1, [] => []
  | f + 1, c :: rest =>
    if old.isPrefixOf (c :: rest) then
      new ++ pyReplaceF old new f (rest.drop (old.length - 1))
    else
      c :: pyReplaceF old new f rest

/-- Python `s.replace(old, new)`. -/
def pyReplace (s old new : Str) : Str :=
  match old with
  | [] => new ++ interleaveIns new s
  | _ :: _ => pyReplaceF old new s.length s

/-- Python `s.isdigit()` on the ASCII serial numbers the program writes. -/
def pyIsDigit (s : Str) : Bool :=
  !s.isEmpty && s.all Char.isDigit

/-- Python `s.split(sep)` for a one-character separator. -/
def splitOnChar (sep : Char) : Str → List Str
  | [] => [[]]
  | c :: rest =>
    let r := splitOnChar sep rest
    if c = sep then [] :: r
    else
      match r with
      | [] => [[c]]
      | h :: t => (c :: h) :: t

/-- Numeric value of a decimal digit character. -/
def charDigitVal (c : Char) : Nat := c.toNat - 48

/-- Numeric value of a decimal digit string (leading zeros allowed). -/
def digitsVal (s : Str) : Nat :=
  s.foldl (fun a c => a * 10 + charDigitVal c) 0

/-- Fuel-driven most-significant-first decimal digits of `n` (empty for
`n = 0`; fuel `n` always suffices since `n / 10 < n`). -/
def natDigitsAux : Nat → Nat → Str
  | 0, _ => []
  | f + 1, n =>
    if n = 0 then [] else natDigitsAux f (n / 10) ++ [Nat.digitChar (n % 10)]

/-- Decimal representation of a natural number, mirroring Python `str(n)`. -/
def natToDigits (n : Nat) : Str :=
  if n = 0 then ['0'] else natDigitsAux n n

/-- Python `int(s)` restricted to plain decimal digit strings, as produced
by the invoice-number format (signs/whitespace never occur there). -/
def parseNatPy (s : Str) : Option Nat :=
  if !s.isEmpty && s.all Char.isDigit then some (digitsVal s) else none

/-- Python f-string `f"{n:03d}"`: zero-pad the decimal form to width 3. -/
def padSeq (n : Nat) : Str :=
  let d := natToDigits n
  List.replicate (3 - d.length) '0' ++ d

/-- Python `str(y)[-2:]`. -/
def lastTwo (s : Str) : Str := s.drop (s.length - 2)

/-!
## `dashboard/services.py` — `generate_invoice_number`

The store state is the list of invoice-number strings currently saved;
Django's `order_by('-invoice_number').first()` is the maximum string in
binary (codepoint) lexicographic order; `transaction.atomic()` is modelled
by the function reading one consistent snapshot `stored`.
-/

/-- Codepoint-lexicographic strict order on strings (the database
collation order on these ASCII invoice numbers). -/
def lexLt : Str → Str → Bool
  | [], [] => false
  | [], _ :: _ => true
  | _ :: _, [] => false
  | a :: as, b :: bs => if a < b then true else if b < a then false else lexLt as bs

/-- `order_by('-invoice_number').first()`: the lexicographically largest
element, `none` on an empty query set. -/
def latestStr (l : List Str) : Option Str :=
  l.foldl
    (fun acc s =>
      match acc with
      | none => some s
      | some m => if lexLt m s then some s else some m)
    none

/-- `f"KEC/{sequence:03d}/{fiscal_year}"`. -/
def fmtInvoice (seq : Nat) (fy : Str) : Str :=
  "KEC/".data ++ padSeq seq ++ '/' :: fy

/-- Lines 37-48 of `services.py`: split the latest invoice number on `/`;
if it has shape `KEC/<digits>/<fy>` the next sequence is that number plus
one, otherwise (including `int` failure) the sequence restarts at 1. -/
def seqFromLatest (inv : Str) (fy : Str) : Nat :=
  let parts := splitOnChar '/' inv
  if parts.length = 3 ∧ parts[0]? = some "KEC".data ∧ parts[2]? = some fy then
    match parts[1]? with
    | some mid =>
      match parseNatPy mid with
      | some n => n + 1
      | none => 1
    | none => 1
  else 1

/-- The sequence number before the uniqueness recheck loop: successor of
the sequence parsed from the latest stored invoice of the fiscal year, or
1 when the filtered query set is empty. -/
def initialSeq (stored : List Str) (fy : Str) : Nat :=
  match latestStr (stored.filter
      (fun s => "KEC/".data.isPrefixOf s && ('/' :: fy).isSuffixOf s)) with
  | none => 1
  | some inv => seqFromLatest inv fy

/-- The `while Invoice.objects.filter(invoice_number=...).exists()` loop:
bump the sequence until the formatted number is not stored.  The loop is
given `stored.length + 1` fuel, provably enough because the candidate
strings are pairwise distinct. -/
def ensureUniqueLoop (stored : List Str) (fy : Str) : Nat → Nat → Str
  | 0, seq => fmtInvoice seq fy
  | f + 1, seq =>
    if fmtInvoice seq fy ∈ stored then ensureUniqueLoop stored fy f (seq + 1)
    else fmtInvoice seq fy

/-- `generate_invoice_number` against the snapshot `stored`, for fiscal
year string `fy`. -/
def genInvoiceCore (stored : List Str) (fy : Str) : Str :=
  ensureUniqueLoop stored fy (stored.length + 1) (initialSeq stored fy)

/-- Lines 19-28 of `services.py`: fiscal year runs April 1 to March 31 and
is rendered as the last two decimal digits of each boundary year. -/
def fiscalYearStr (nowYear nowMonth : Nat) : Str :=
  if 4 ≤ nowMonth then
    lastTwo (natToDigits nowYear) ++ lastTwo (natToDigits (nowYear + 1))
  else
    lastTwo (natToDigits (nowYear - 1)) ++ lastTwo (natToDigits nowYear)

/-- `generate_invoice_number`, with `datetime.now()` supplied as the
current year and month. -/
def generate_invoice_number (nowYear nowMonth : Nat) (stored : List Str) : Str :=
  genInvoiceCore stored (fiscalYearStr nowYear nowMonth)

/-!
## `dashboard/views.py` — `seek_and_replace` (lines 3185-3254)

A document is modelled down to the level the function manipulates:
paragraphs are lists of runs (text plus the yellow-highlight flag the code
tests), table cells are lists of paragraphs, and section headers/footers
are paragraph lists.  Nested tables inside cells receive the same
treatment as top-level non-pricing tables (the recursive call passes no
pricing flag); no claim concerns them and they are elided from the cell
model.
-/

/-- A formatted text run: its text and whether it carries the
`WD_COLOR_INDEX.YELLOW` highlight the code checks for. -/
structure Run where
  text : Str
  highlighted : Bool
deriving DecidableEq, Repr

/-- A paragraph is its list of runs. -/
abbrev Para := List Run

/-- `"".join(run.text for run in paragraph.runs)`. -/
def paraText (p : Para) : Str := (p.map Run.text).flatten

/-- One pass of the replacement dictionary over a text, as in lines
3193-3196: each entry is applied only when its value is non-empty and its
key occurs in the current text. -/
def applyReplacements (repl : List (Str × Str)) (s : Str) : Str :=
  repl.foldl
    (fun acc p =>
      if !p.2.isEmpty && containsSub acc p.1 then pyReplace acc p.1 p.2 else acc)
    s

/-- `replace_in_paragraph` (lines 3188-3217): if the concatenated text
changed, the new text is placed in the first run and all other runs are
blanked.  The highlighted and non-highlighted branches of the source have
the same effect on run texts; the branch on the highlight flag is kept to
mirror the control flow. -/
def replace_in_paragraph (repl : List (Str × Str)) (p : Para) : Para :=
  let full := paraText p
  let rep := applyReplacements repl full
  if rep = full then p
  else
    match p with
    | [] => []
    | r :: rs =>
      if (r :: rs).any Run.highlighted then
        { r with text := rep } :: rs.map (fun x => { x with text := [] })
      else
        { r with text := rep } :: rs.map (fun x => { x with text := [] })

/-- A table cell for text substitution: its paragraphs. -/
abbrev CellR := List Para

/-- python-docx `cell.text`: paragraphs joined by newlines. -/
def cellRText (c : CellR) : Str :=
  List.intercalate ['\n'] (c.map paraText)

/-- Replace in every paragraph of a cell. -/
def replace_in_cell (repl : List (Str × Str)) (c : CellR) : CellR :=
  c.map (replace_in_paragraph repl)

/-- Line 3229: the row's first cell holds a purely numeric serial. -/
def rowSerialCheck (row : List CellR) : Bool :=
  match row[0]? with
  | some c0 => pyIsDigit (pyStrip (cellRText c0))
  | none => false

/-- `replace_in_table` on one row (lines 3220-3233): in the pricing table
column 0 is always skipped, and column 3 is skipped when the row's first
cell holds a numeric serial. -/
def replace_in_row (repl : List (Str × Str)) (pricing : Bool) (row : List CellR) :
    List CellR :=
  row.enum.map
    (fun p =>
      if pricing && p.1 == 0 then p.2
      else if pricing && p.1 == 3 && rowSerialCheck row then p.2
      else replace_in_cell repl p.2)

/-- `replace_in_table` (lines 3219-3235), row by row. -/
def replace_in_table (repl : List (Str × Str)) (pricing : Bool)
    (t : List (List CellR)) : List (List CellR) :=
  t.map (replace_in_row repl pricing)

/-- One document section's header and footer paragraphs. -/
structure DocSection where
  header : List Para
  footer : List Para
deriving DecidableEq, Repr

/-- The document parts `seek_and_replace` walks. -/
structure DocM where
  paragraphs : List Para
  tables : List (List (List CellR))
  sections : List DocSection
deriving DecidableEq, Repr

/-- `seek_and_replace` (lines 3237-3254): body paragraphs, tables (the
second table, index 1, is the pricing table), and section
headers/footers. -/
def seek_and_replace (doc : DocM) (repl : List (Str × Str)) : DocM :=
  { paragraphs := doc.paragraphs.map (replace_in_paragraph repl)
    tables := doc.tables.enum.map (fun p => replace_in_table repl (p.1 == 1) p.2)
    sections := doc.sections.map
      (fun s =>
        { header := s.header.map (replace_in_paragraph repl)
          footer := s.footer.map (replace_in_paragraph repl) }) }

/-!
## `dashboard/views.py` — the replacement map of `generate_quotation`
(lines 4192-4218)

The submitted header fields (after the revision/quote-number bookkeeping)
and the three composed content strings are parameters; the four price/words
entries fall back to the template's literal default — the key itself —
when the submitted field is empty.
-/

/-- The header-field values the orchestration puts into the map. -/
structure QuoteFormData where
  quote_no : Str
  revision : Str
  date : Str
  to_person : Str
  firm : Str
  address : Str
  payment_terms : Str
  delivery_terms : Str
deriving DecidableEq, Repr

/-- Template literal: first fixture's default price. -/
def key26879 : Str := "26,879/-".data

/-- Template literal: first fixture's default amount in words. -/
def keyWords1 : Str :=
  "Twenty-Six Thousand Eight Hundred Seventy-Nine INR Only PER EACH".data

/-- Template literal: second fixture's default price. -/
def key29546 : Str := "29,546/-".data

/-- Template literal: second fixture's default amount in words. -/
def keyWords2 : Str :=
  "Twenty-Nine Thousand Five Hundred Forty-Six INR Only PER EACH".data

/-- The ordered replacement dictionary of lines 4193-4218. -/
def buildReplacements (q : QuoteFormData) (inclusion scope specification : Str)
    (f1price f1words f2price f2words : Str) : List (Str × Str) :=
  [ ("KEC005JN2025".data, q.quote_no),
    ("Rev A".data, q.revision),
    ("Wednesday, September 24, 2025".data, q.date),
    ("Mr. Mohak Dholakia".data, q.to_person),
    ("Schneider Electric India Private Limited".data, q.firm),
    (("Electrical & Automation (E&A), Village Ankhol, Behind L&T Knowledge City, N. H. 8, Between Ajwa-Waghodia Junction, Vadodara –390019. India").data, q.address),
    ("Payment: 45 Days from delivery (Being an MSME)".data, q.payment_terms),
    ("Delivery: 2-3 weeks per fixture from Purchase Order (Gov. force majeure conditions apply at time of delivery)".data, q.delivery_terms),
    ("<inclusion>".data, inclusion),
    ("<scope>".data, scope),
    ("<specification>".data, specification),
    ("< specification>".data, specification),
    (key26879, if f1price.isEmpty then key26879 else f1price),
    (keyWords1, if f1words.isEmpty then keyWords1 else f1words),
    (key29546, if f2price.isEmpty then key29546 else f2price),
    (keyWords2, if f2words.isEmpty then keyWords2 else f2words) ]

/-- The form defaults of lines 3897-3906, used when fields are absent. -/
def defaultQuoteForm : QuoteFormData :=
  { quote_no := "KEC005JN2025".data
    revision := "Rev A".data
    date := "Wednesday, September 24, 2025".data
    to_person := "Mr. Mohak Dholakia".data
    firm := "Schneider Electric India Private Limited".data
    address := []
    payment_terms := "Payment: 45 Days from delivery (Being an MSME)".data
    delivery_terms := "Delivery: 2-3 weeks per fixture from Purchase Order".data }

/-!
## `dashboard/views.py` — the pricing-table engine
(`populate_pricing_table_with_fixtures`, lines 3498-3685, and
`add_fixture_rows_to_table`, lines 3341-3496)

For table population only the flat cell text and the presence of an
embedded picture matter, so a cell is text plus an image flag.  Setting
`cell.text` in python-docx replaces the whole cell content (dropping any
picture), and `_insert_image_in_cell` ends with an empty-text cell holding
the picture.
-/

/-- A pricing-table cell: its text and whether a picture is embedded. -/
structure Cell where
  text : Str
  img : Bool
deriving DecidableEq, Repr

/-- A table row. -/
abbrev TRow := List Cell

/-- A table: list of rows (row 0 is the header). -/
abbrev Table := List TRow

/-- Outcome of the external image-processing steps for one uploaded image
payload: whether the Pillow import, the decode/convert/resize/re-encode
block, and the docx embed call succeed.  These are the three points where
the external libraries can fail; each is caught in the source and turned
into a `False` return. -/
structure ImgOutcome where
  pillow : Bool
  decodeOk : Bool
  embedOk : Bool
deriving DecidableEq, Repr

/-- A fixture as built by `generate_quotation` (lines 3917-3929).  Every
key is always present in the dict, so the `.get(key, default)` calls in the
table code always return the stored value; `image` is `none` when no (or
an empty) upload was supplied. -/
structure Fixture where
  name : Str
  desc : Str
  hsn : Str
  qty : Str
  unit : Str
  price : Str
  total : Str
  words : Str
  specifications : Str
  image : Option ImgOutcome
deriving DecidableEq, Repr

/-- The column-position map: for each recognised role, the column index it
was matched to in the header row, if any. -/
structure ColumnPositions where
  sr : Option Nat
  description : Option Nat
  image : Option Nat
  qty : Option Nat
  rate : Option Nat
  per : Option Nat
  amount : Option Nat
deriving DecidableEq, Repr

/-- No column matched yet. -/
def emptyPositions : ColumnPositions :=
  ⟨none, none, none, none, none, none, none⟩

/-- One header cell's keyword match (the `elif` chain of lines 3514-3527;
a later match for the same role overwrites an earlier one, as dict
assignment does). -/
def headerKeywordUpdate (pos : ColumnPositions) (i : Nat) (t : Str) :
    ColumnPositions :=
  if containsSub t "sr".data || containsSub t "serial".data then
    { pos with sr := some i }
  else if containsSub t "description".data then { pos with description := some i }
  else if containsSub t "image".data then { pos with image := some i }
  else if containsSub t "qty".data || containsSub t "quantity".data then
    { pos with qty := some i }
  else if containsSub t "rate".data then { pos with rate := some i }
  else if containsSub t "per".data || containsSub t "unit".data then
    { pos with per := some i }
  else if containsSub t "amount".data then { pos with amount := some i }
  else pos

/-- STEP 1 (lines 3506-3527): scan the header row (row 0) and build the
column-position map.  The identical scan also opens
`add_fixture_rows_to_table` (lines 3349-3367). -/
def headerScan (tab : Table) : ColumnPositions :=
  match tab with
  | [] => emptyPositions
  | hr :: _ =>
    hr.enum.foldl
      (fun pos ic => headerKeywordUpdate pos ic.1 (toLowerStr (pyStrip ic.2.text)))
      emptyPositions

/-- `cell.text = v` in python-docx: the cell content is replaced by the
plain text `v` (any embedded picture is dropped). -/
def setCellText (row : TRow) (c : Nat) (v : Str) : TRow :=
  row.set c ⟨v, false⟩

/-- A guarded write `cells[pos[role]].text = v` for an optional role
column; `List.set` out of range is the identity, matching the
`col_idx < len(cells)` guards in the source. -/
def setColOpt (row : TRow) (o : Option Nat) (v : Str) : TRow :=
  match o with
  | none => row
  | some c => setCellText row c v

/-- The multi-line description block (lines 3586-3596 and 3403-3413). -/
def descText (f : Fixture) : Str :=
  let l1 := if !f.name.isEmpty || !f.desc.isEmpty then
      [pyStrip (f.name ++ ' ' :: f.desc)] else []
  let l2 := ["(as per annexure)".data]
  let l3 := if !f.hsn.isEmpty then ["HSN Code: ".data ++ f.hsn] else []
  let l4 := if !(pyStrip f.specifications).isEmpty then
      ["Specifications: ".data ++ f.specifications] else []
  List.intercalate ['\n'] (l1 ++ l2 ++ l3 ++ l4)

/-- `_insert_image_in_cell` (lines 3256-3339): `False` for missing/empty
bytes, failed Pillow import, failed decode/convert/re-encode; the cell is
cleared just before the embed attempt, so a failed embed leaves a cleared
cell and `False`; on success the cell holds only the picture.  Every
failure path in the source returns `False` through its own `except`
handler (with a final catch-all), so the model is a total function — no
exception escapes. -/
def _insert_image_in_cell (cell : Cell) (imageBytes : Option ImgOutcome) :
    Bool × Cell :=
  match imageBytes with
  | none => (false, cell)
  | some o =>
    if !o.pillow then (false, cell)
    else if !o.decodeOk then (false, cell)
    else if !o.embedOk then (false, ⟨[], false⟩)
    else (true, ⟨[], true⟩)

/-- `f"[Image: {fixture.get('name', 'Product')}]"` — the `name` key is
always present in the fixture dict, so the `'Product'` default is never
taken. -/
def imgPlaceholder (name : Str) : Str :=
  "[Image: ".data ++ name ++ "]".data

/-- The image-column write of lines 3600-3609 (identically lines
3417-3424): with a payload, try to embed and fall back to the bracketed
placeholder on failure; with no payload, write empty text. -/
def placeImageCell (pos : ColumnPositions) (f : Fixture) (row : TRow) : TRow :=
  match pos.image with
  | none => row
  | some c =>
    match row[c]? with
    | none => row
    | some cell =>
      match f.image with
      | none => setCellText row c []
      | some o =>
        let res := _insert_image_in_cell cell (some o)
        if res.1 then row.set c res.2
        else setCellText row c (imgPlaceholder f.name)

/-- The per-fixture data writes shared by lines 3578-3633 and 3397-3437:
serial, description, image, quantity, rate, unit, amount — each only into
its matched column. -/
def writeFixtureData (pos : ColumnPositions) (f : Fixture) (fidx : Nat)
    (row : TRow) : TRow :=
  let row := setColOpt row pos.sr (natToDigits (fidx + 1))
  let row := setColOpt row pos.description (descText f)
  let row := placeImageCell pos f row
  let row := setColOpt row pos.qty f.qty
  let row := setColOpt row pos.rate f.price
  let row := setColOpt row pos.per f.unit
  let row := setColOpt row pos.amount f.total
  row

/-- Lines 3573-3576: clear every matched data column except the image
column (the clears all write the same empty text into distinct matched
columns, so the dict iteration order is immaterial). -/
def clearMatchedNonImage (pos : ColumnPositions) (row : TRow) : TRow :=
  let row := setColOpt row pos.sr []
  let row := setColOpt row pos.description []
  let row := setColOpt row pos.qty []
  let row := setColOpt row pos.rate []
  let row := setColOpt row pos.per []
  let row := setColOpt row pos.amount []
  row

/-- In-place fill of one detected fixture row (lines 3563-3633). -/
def fillFixtureRow (pos : ColumnPositions) (f : Fixture) (fidx : Nat)
    (row : TRow) : TRow :=
  writeFixtureData pos f fidx (clearMatchedNonImage pos row)

/-- `" ".join(cell.text.strip() for cell in row.cells).lower()`. -/
def rowSearchText (row : TRow) : Str :=
  toLowerStr (List.intercalate [' '] (row.map (fun c => pyStrip c.text)))

/-- `f"fixture {k}"`. -/
def fixtureTag (k : Nat) : Str := "fixture ".data ++ natToDigits k

/-- Line 3538: the row text marks a fixture row (the keyword heuristic). -/
def fixtureRowCond (s : Str) : Bool :=
  containsSub s "fixture".data &&
    (containsSub s "holding".data || containsSub s "pulling".data ||
     containsSub s "connector".data || containsSub s "pcba".data)

/-- Lines 3540-3554: the fixture index assigned to a detected row —
branch 1 for "fixture 1"/"holding", branch 2 for "fixture 2"/"pulling",
otherwise the first explicitly numbered tag below `n`, defaulting to the
number of rows detected so far. -/
def fixtureRowNum (s : Str) (n acclen : Nat) : Nat :=
  if containsSub s (fixtureTag 1) || containsSub s "holding".data then 0
  else if containsSub s (fixtureTag 2) || containsSub s "pulling".data then 1
  else
    match (List.range n).find? (fun i => containsSub s (fixtureTag (i + 1))) with
    | some i => i
    | none => acclen

/-- STEP 2 (lines 3531-3558): scan the non-header rows for fixture rows
and pair each with a fixture index. -/
def detectFixtureRows (tab : Table) (n : Nat) : List (Nat × Nat) :=
  (List.range' 1 (tab.length - 1)).foldl
    (fun acc r =>
      match tab[r]? with
      | none => acc
      | some row =>
        let s := rowSearchText row
        if fixtureRowCond s then
          let fn := fixtureRowNum s n acc.length
          if fn < n then acc ++ [(r, fn)] else acc
        else acc)
    []

/-- STEP 3 (lines 3562-3633): fill every detected fixture row in place. -/
def populateFixtureRows (pos : ColumnPositions) (frows : List (Nat × Nat))
    (fixtures : List Fixture) (tab : Table) : Table :=
  frows.foldl
    (fun t rf =>
      if rf.2 < fixtures.length then
        match t[rf.1]?, fixtures[rf.2]? with
        | some row, some f => t.set rf.1 (fillFixtureRow pos f rf.2 row)
        | _, _ => t
      else t)
    tab

/-- STEP 4 detection (lines 3636-3641): the non-header rows whose joined
text contains the `"in words:"` marker, in document order. -/
def wordsRowIdxs (tab : Table) : List Nat :=
  (List.range' 1 (tab.length - 1)).filter
    (fun r =>
      match tab[r]? with
      | some row => containsSub (rowSearchText row) "in words:".data
      | none => false)

/-- One "in words" row rewrite (lines 3652-3660): clear the serial column,
then write `"In Words: " + words` into every cell from the description
column (default start column 1) to the end of the row. -/
def fillWordsRow (pos : ColumnPositions) (f : Fixture) (row : TRow) : TRow :=
  let row := setColOpt row pos.sr []
  let wt := "In Words: ".data ++ f.words
  let start := pos.description.getD 1
  (List.range' start (row.length - start)).foldl
    (fun r c => setCellText r c wt) row

/-- STEP 4 processing (lines 3646-3662): pair the detected words rows
positionally with the fixtures. -/
def populateWordsRows (pos : ColumnPositions) (fixtures : List Fixture)
    (tab : Table) : Table :=
  (wordsRowIdxs tab).enum.foldl
    (fun t ir =>
      if ir.1 < fixtures.length then
        match t[ir.2]?, fixtures[ir.1]? with
        | some row, some f => t.set ir.2 (fillWordsRow pos f row)
        | _, _ => t
      else t)
    tab

/-- `populate_pricing_table_with_fixtures` (lines 3498-3685; the final
"verification" block only prints). -/
def populate_pricing_table_with_fixtures (tab : Table) (fixtures : List Fixture) :
    Table :=
  if fixtures.isEmpty then tab
  else
    let pos := headerScan tab
    let t3 := populateFixtureRows pos (detectFixtureRows tab fixtures.length) fixtures tab
    populateWordsRows pos fixtures t3

/-- An all-blank cell (after `cell.text = ""`). -/
def blankCell : Cell := ⟨[], false⟩

/-- Lines 3386-3437: clone of the template fixture row with every cell
cleared, then the standard guarded data writes. -/
def newFixtureRow (pos : ColumnPositions) (f : Fixture) (idx : Nat)
    (tmpl : TRow) : TRow :=
  writeFixtureData pos f idx (tmpl.map (fun _ => blankCell))

/-- Lines 3446-3466: clone of the template words row with every cell
cleared, serial column cleared again, words text from the description
column (default 1) onwards. -/
def newWordsRow (pos : ColumnPositions) (f : Fixture) (tmpl : TRow) : TRow :=
  fillWordsRow pos f (tmpl.map (fun _ => blankCell))

/-- `add_fixture_rows_to_table` (lines 3341-3496): for each fixture beyond
the first two, clone-and-fill a fixture row and (when the template has a
words row at index 2) a words row, appended in order at the end of the
table (`_clone_row_at_position` always appends here because the insert
position starts at `len(table.rows)` and tracks it). -/
def add_fixture_rows_to_table (tab : Table) (fixtures : List Fixture) : Table :=
  if fixtures.length ≤ 2 then tab
  else
    let pos := headerScan tab
    match tab[1]? with
    | none => tab
    | some tmplFix =>
      let tmplWords := tab[2]?
      (List.range' 2 (fixtures.length - 2)).foldl
        (fun t idx =>
          match fixtures[idx]? with
          | none => t
          | some f =>
            let t2 := t ++ [newFixtureRow pos f idx tmplFix]
            match tmplWords with
            | none => t2
            | some tw => t2 ++ [newWordsRow pos f tw])
        tab

/-- The orchestration order of lines 4228-4238: populate the existing
rows, then append rows for fixtures beyond the first two. -/
def processPricingTable (tab : Table) (fixtures : List Fixture) : Table :=
  let t1 := populate_pricing_table_with_fixtures tab fixtures
  if 2 < fixtures.length then add_fixture_rows_to_table t1 fixtures else t1

/-!
## The pricing-table template and canonical fixtures
-/

/-- First default words row text (fallback template, line 4174). -/
def tmplWordsText1 : Str :=
  "In Words: Twenty-Six Thousand Eight Hundred Seventy-Nine INR Only PER EACH".data

/-- Second default words row text (fallback template, line 4186). -/
def tmplWordsText2 : Str :=
  "In Words: Twenty-Nine Thousand Five Hundred Forty-Six INR Only PER EACH".data

/-- A plain text cell of the template. -/
def tcell (s : Str) : Cell := ⟨s, false⟩

/-- Template pricing-table header row (`Sr. | Description | Qty | Rate |
Unit | Amount`, fallback template lines 4155-4161). -/
def tmplRow0 : TRow :=
  [tcell "Sr.".data, tcell "Description".data, tcell "Qty".data,
   tcell "Rate".data, tcell "Unit".data, tcell "Amount".data]

/-- Template first built-in fixture row (lines 4164-4170). -/
def tmplRow1 : TRow :=
  [tcell "1".data,
   tcell "Fixture 1 Holding minitop connector\n(as per annexure)\nHSN Code: 84790000".data,
   tcell "1".data, tcell "26,879/-".data, tcell "Set".data, tcell "26,879/-".data]

/-- Template first words row. -/
def tmplRow2 : TRow := List.replicate 6 (tcell tmplWordsText1)

/-- Template second built-in fixture row (lines 4176-4182). -/
def tmplRow3 : TRow :=
  [tcell "2".data,
   tcell "Fixture 2 pulling minitop PCBA\n(as per annexure)\nHSN Code: 84790000".data,
   tcell "1".data, tcell "29,546/-".data, tcell "Set".data, tcell "29,546/-".data]

/-- Template second words row. -/
def tmplRow4 : TRow := List.replicate 6 (tcell tmplWordsText2)

/-- Modelled from the spec: the template .docx file
(`Quote KEC005JN2025 RevA - new format full_1.docx`) is a binary asset not
present in the sources; its pricing table is modelled from spec sections
4.2 and 6 (header row plus two built-in fixture-row/words-row pairs) with
the cell texts of the in-code fallback template (`dashboard/views.py`
lines 4149-4186; the fallback's own words-row assignments `row2.cells` /
`row4.cells` would raise, but show the intended text). -/
def templatePricingTable : Table :=
  [tmplRow0, tmplRow1, tmplRow2, tmplRow3, tmplRow4]

/-- The placeholder fixture of lines 3950-3963 (used to pad submissions up
to two fixtures); taken as the canonical clean fixture for scenarios that
quantify only over the fixture count. -/
def paddedFixture (k : Nat) : Fixture :=
  { name := "Fixture ".data ++ natToDigits k
    desc := []
    hsn := "84790000".data
    qty := "1".data
    unit := "Set".data
    price := []
    total := []
    words := []
    specifications := []
    image := none }

/-- `n` canonical fixtures starting at number `k`. -/
def paddedFixturesFrom : Nat → Nat → List Fixture
  | 0, _ => []
  | m + 1, k => paddedFixture k :: paddedFixturesFrom m (k + 1)

/-- `n` canonical fixtures, numbered from 1. -/
def paddedFixtures (n : Nat) : List Fixture :=
  paddedFixturesFrom n 1

/-- The column positions the header scan finds on the template header. -/
def posT : ColumnPositions :=
  { sr := some 0, description := some 1, image := none,
    qty := some 2, rate := some 3, per := some 4, amount := some 5 }

/-- The template's first fixture row after the in-place fill with the
canonical fixture 1. -/
def popRow1 : TRow :=
  [tcell "1".data,
   tcell "Fixture 1\n(as per annexure)\nHSN Code: 84790000".data,
   tcell "1".data, tcell [], tcell "Set".data, tcell []]

/-- A words row after the rewrite for a canonical fixture (empty words). -/
def popWordsRow : TRow :=
  tcell [] :: List.replicate 5 (tcell "In Words: ".data)

/-- The template's second fixture row after the in-place fill with the
canonical fixture 2. -/
def popRow3 : TRow :=
  [tcell "2".data,
   tcell "Fixture 2\n(as per annexure)\nHSN Code: 84790000".data,
   tcell "1".data, tcell [], tcell "Set".data, tcell []]

/-- The template table after `populate_pricing_table_with_fixtures` with
canonical fixtures (any count at least two). -/
def popTemplate : Table :=
  [tmplRow0, popRow1, popWordsRow, popRow3, popWordsRow]

/-- The template after STEP 3 (fixture rows filled, words rows not yet). -/
def t3Template : Table :=
  [tmplRow0, popRow1, tmplRow2, popRow3, tmplRow4]

/-- The fixture row appended for canonical fixture number `k`. -/
def appendedFixtureRow (k : Nat) : TRow :=
  [tcell (natToDigits k),
   tcell ("Fixture ".data ++ natToDigits k ++
     "\n(as per annexure)\nHSN Code: 84790000".data),
   tcell "1".data, tcell [], tcell "Set".data, tcell []]

/-- The text of cell `(r, c)` of a table, if present. -/
def cellTextAt (tab : Table) (r c : Nat) : Option Str :=
  (tab[r]?.bind (fun row => row[c]?)).map Cell.text

/-- The serial-column (column 0) texts of a table, row by row (empty text
for a row with no cells). -/
def serialColumn (tab : Table) : List Str :=
  tab.map (fun row => ((row[0]?).map Cell.text).getD [])

/-- Column `c` is one of the matched role columns of `pos`. -/
def matchedCol (pos : ColumnPositions) (c : Nat) : Prop :=
  pos.sr = some c ∨ pos.description = some c ∨ pos.image = some c ∨
  pos.qty = some c ∨ pos.rate = some c ∨ pos.per = some c ∨ pos.amount = some c

/-- The start column of the words-row writes, `column_positions.get('description', 1)`. -/
def wordsStartCol (pos : ColumnPositions) : Nat :=
  pos.description.getD 1

/-!
Field erasers used to state that an unmatched column's data is never
written: populating with the field blanked gives the same table.
-/

/-- Blank the line-total field. -/
def eraseTotal (f : Fixture) : Fixture := { f with total := [] }

/-- Blank the quantity field. -/
def eraseQty (f : Fixture) : Fixture := { f with qty := [] }

/-- Blank the unit-price field. -/
def erasePrice (f : Fixture) : Fixture := { f with price := [] }

/-- Blank the unit-label field. -/
def eraseUnit (f : Fixture) : Fixture := { f with unit := [] }

/-- Drop the image payload. -/
def eraseImage (f : Fixture) : Fixture := { f with image := none }

/-- Blank the fields feeding the description block (the name also feeds
the image placeholder, so it is kept). -/
def eraseDescFields (f : Fixture) : Fixture :=
  { f with desc := [], hsn := [], specifications := [] }

/-!
## `dashboard/views.py` — fixture collection in `generate_quotation`
(lines 3909-3947)

`request.POST` and `request.FILES` are modelled as association lists; a
`FILES` value is `none` for an empty upload (`size == 0`) and `some o`
for a non-empty payload with processing outcome `o`.
-/

/-- Submitted form fields. -/
abbrev PostData := List (Str × Str)

/-- Submitted files: value `none` models an empty upload. -/
abbrev FilesData := List (Str × Option ImgOutcome)

/-- First value for a key, `None` when absent. -/
def lookupPost (post : PostData) (k : Str) : Option Str :=
  (post.find? (fun p => p.1 == k)).map (fun p => p.2)

/-- Python `key in request.POST`. -/
def postHas (post : PostData) (k : Str) : Bool :=
  (lookupPost post k).isSome

/-- `request.POST.get(key, default)`. -/
def postGetD (post : PostData) (k d : Str) : Str :=
  (lookupPost post k).getD d

/-- `f"fixtures[{i}][{field}]"`. -/
def fixtureKey (i : Nat) (field : Str) : Str :=
  "fixtures[".data ++ natToDigits i ++ "][".data ++ field ++ "]".data

/-- The fixture dict built for index `i` (lines 3917-3944). -/
def fixtureFromPost (post : PostData) (files : FilesData) (i : Nat) : Fixture :=
  { name := postGetD post (fixtureKey i "name".data) []
    desc := postGetD post (fixtureKey i "desc".data) []
    hsn := postGetD post (fixtureKey i "hsn".data) "84790000".data
    qty := postGetD post (fixtureKey i "qty".data) "1".data
    unit := postGetD post (fixtureKey i "unit".data) "Set".data
    price := postGetD post (fixtureKey i "price".data) []
    total := postGetD post (fixtureKey i "total".data) []
    words := postGetD post (fixtureKey i "words".data) []
    specifications := postGetD post (fixtureKey i "specifications".data) []
    image :=
      match (files.find? (fun p => p.1 == fixtureKey i "image".data)).map
          (fun p => p.2) with
      | some (some o) => some o
      | _ => none }

/-- The `while True` collection loop (lines 3912-3947): read consecutive
indices from 0 and stop at the first index whose `fixtures[i][name]` key
is absent from the POST data.  Keys are pairwise distinct across indices,
so `post.length + 1` fuel always reaches the stopping index. -/
def collectFixturesLoop (post : PostData) (files : FilesData) :
    Nat → Nat → List Fixture
  | 0, _ => []
  | fuel + 1, i =>
    if postHas post (fixtureKey i "name".data) then
      fixtureFromPost post files i :: collectFixturesLoop post files fuel (i + 1)
    else []

/-- The fixture list `generate_quotation` builds from the submission. -/
def collectFixtures (post : PostData) (files : FilesData) : List Fixture :=
  collectFixturesLoop post files (post.length + 1) 0

/-!
## Scenario inputs for the claim witnesses and counterexamples
-/

/-- C3 counterexample input: a pricing table with an image column whose
single fixture row matches the detection heuristic. -/
def c3Table : Table :=
  [ [tcell "sr".data, tcell "description".data, tcell "image".data,
     tcell "qty".data, tcell "rate".data, tcell "per".data, tcell "amount".data],
    [tcell "1".data, tcell "Fixture 1 Holding widget".data, tcell "img".data,
     tcell "1".data, tcell [], tcell "Set".data, tcell []] ]

/-- C3 counterexample input: a fixture carrying no image payload. -/
def c3Fixture : Fixture :=
  { name := "Widget".data, desc := [], hsn := [], qty := "1".data
    unit := "Set".data, price := [], total := [], words := []
    specifications := [], image := none }

/-- The column positions found on the C3/C4 witness header (image at 2). -/
def posT3 : ColumnPositions :=
  { sr := some 0, description := some 1, image := some 2,
    qty := some 3, rate := some 4, per := some 5, amount := some 6 }

/-- The fixture row of the C3/C4 witness table. -/
def c3Row : TRow :=
  [tcell "1".data, tcell "Fixture 1 Holding widget".data, tcell "img".data,
   tcell "1".data, tcell [], tcell "Set".data, tcell []]

/-- A one-paragraph document holding the template's default customer name. -/
def c1Doc : DocM :=
  { paragraphs := [[⟨"Mr. Mohak Dholakia".data, false⟩]]
    tables := []
    sections := [] }

/-- A first (non-pricing) table for the C8 witness: one cell with the
`"Rev A"` default. -/
def c8Table0 : List (List CellR) := [[[[⟨"Rev A".data, false⟩]]]]

/-- The pricing table for the C8 witness: one item row with a numeric
serial in column 0 and the `"Rev A"` default in columns 1-3. -/
def c8Table1 : List (List CellR) :=
  [[[[⟨"1".data, false⟩]], [[⟨"Rev A".data, false⟩]],
    [[⟨"Rev A".data, false⟩]], [[⟨"Rev A".data, false⟩]]]]

/-- The document for the C8 witness: the pricing table sits at index 1. -/
def c8Doc : DocM :=
  { paragraphs := [], tables := [c8Table0, c8Table1], sections := [] }

/-- The replacement map for the C8 witness. -/
def c8Repl : List (Str × Str) := [("Rev A".data, "Rev B".data), ("1".data, "9".data)]

/-- The C10 witness POST data: fixture name keys at indices 0 and 2, with
index 1 missing. -/
def c10Post : PostData :=
  [(fixtureKey 0 "name".data, "A".data), (fixtureKey 2 "name".data, "B".data)]

/-- The C5 witness table: a header matching only the serial keyword, and
one detected fixture row. -/
def c5Tab : Table :=
  [[tcell "sr.".data],
   [tcell "fixture 1 holding".data, tcell "x".data]]

/-- The C5 witness fixture, with data in every field. -/
def c5Fix : Fixture :=
  { name := "N".data, desc := "D".data, hsn := "H".data, qty := "Q".data
    unit := "U".data, price := "P".data, total := "T".data, words := "W".data
    specifications := "S".data, image := some ⟨true, true, true⟩ }

/-- A two-cell row for the C5 frame conjunct. -/
def c5Row : TRow := [tcell "a".data, tcell "b".data]

/-!
## Theorems
-/

theorem digitsVal_append_one (l : Str) (c : Char) :
    digitsVal (l ++ [c]) = digitsVal l * 10 + charDigitVal c := by
  simp [digitsVal, List.foldl_append]

theorem digitsVal_natDigitsAux (f : Nat) :
    ∀ n, n ≤ f → digitsVal (natDigitsAux f n) = n := by
  induction f with
  | zero =>
    intro n h
    interval_cases n
    simp [natDigitsAux, digitsVal]
  | succ f ih =>
    intro n h
    by_cases h0 : n = 0
    · simp [natDigitsAux, h0, digitsVal]
    · have hdiv : n / 10 ≤ f := by
        have hlt : n / 10 < n := Nat.div_lt_self (Nat.pos_of_ne_zero h0) (by omega)
        omega
      have hd : charDigitVal (Nat.digitChar (n % 10)) = n % 10 := by
        have : n % 10 < 10 := Nat.mod_lt _ (by omega)
        interval_cases h : n % 10 <;> decide
      rw [natDigitsAux, if_neg h0, digitsVal_append_one, ih _ hdiv, hd]
      omega

theorem digitsVal_natToDigits (n : Nat) : digitsVal (natToDigits n) = n := by
  by_cases h0 : n = 0
  · simp [natToDigits, h0, digitsVal, charDigitVal]
  · rw [natToDigits, if_neg h0]
    exact digitsVal_natDigitsAux n n le_rfl

theorem natToDigits_injective {a b : Nat} (h : natToDigits a = natToDigits b) :
    a = b := by
  have := digitsVal_natToDigits a
  rw [h, digitsVal_natToDigits] at this
  omega

theorem natToDigits_ne_nil (n : Nat) : natToDigits n ≠ [] := by
  by_cases h0 : n = 0
  · simp [natToDigits, h0]
  · rw [natToDigits, if_neg h0]
    obtain ⟨f, rfl⟩ := Nat.exists_eq_succ_of_ne_zero h0
    rw [natDigitsAux, if_neg h0]
    simp

theorem mem_natDigitsAux_isDigit (f : Nat) :
    ∀ n c, c ∈ natDigitsAux f n → c.isDigit = true := by
  induction f with
  | zero => intro n c hc; simp [natDigitsAux] at hc
  | succ f ih =>
    intro n c hc
    rw [natDigitsAux] at hc
    by_cases h0 : n = 0
    · simp [h0] at hc
    · rw [if_neg h0] at hc
      rcases List.mem_append.1 hc with h | h
      · exact ih _ _ h
      · have hm : n % 10 < 10 := Nat.mod_lt _ (by omega)
        have hc' : c = Nat.digitChar (n % 10) := by simpa using h
        subst hc'
        interval_cases h : n % 10 <;> decide

theorem mem_natToDigits_isDigit (n : Nat) (c : Char)
    (hc : c ∈ natToDigits n) : c.isDigit = true := by
  by_cases h0 : n = 0
  · simp [natToDigits, h0] at hc
    subst hc; decide
  · rw [natToDigits, if_neg h0] at hc
    exact mem_natDigitsAux_isDigit n n c hc

theorem digitsVal_padSeq (n : Nat) : digitsVal (padSeq n) = n := by
  have hz : ∀ (m : Nat) (acc : Nat), acc = 0 →
      List.foldl (fun a c => a * 10 + charDigitVal c) acc (List.replicate m '0') = 0 := by
    intro m
    induction m with
    | zero => intro acc h; simp [h]
    | succ m ih =>
      intro acc h
      rw [List.replicate_succ, List.foldl_cons]
      exact ih _ (by simp [h, charDigitVal])
  rw [padSeq, digitsVal, List.foldl_append, hz _ 0 rfl]
  exact digitsVal_natToDigits n

theorem padSeq_injective {a b : Nat} (h : padSeq a = padSeq b) : a = b := by
  have := digitsVal_padSeq a
  rw [h, digitsVal_padSeq] at this
  omega

theorem not_space_of_digit (c : Char) (h : c.isDigit = true) :
    isSpaceChar c = false := by
  unfold isSpaceChar
  simp only [Bool.or_eq_false_iff]
  refine ⟨⟨⟨?_, ?_⟩, ?_⟩, ?_⟩ <;>
    · simp only [decide_eq_false_iff_not]
      rintro rfl
      simp [Char.isDigit] at h

theorem pyStrip_no_space (s : Str) (h1 : ∀ c ∈ s.take 1, isSpaceChar c = false)
    (h2 : ∀ c ∈ s.reverse.take 1, isSpaceChar c = false) : pyStrip s = s := by
  cases s with
  | nil => rfl
  | cons a t =>
    have ha : isSpaceChar a = false := h1 a (by simp)
    rw [pyStrip, List.dropWhile_cons, ha]
    simp only [Bool.false_eq_true, if_false]
    obtain ⟨b, u, hb⟩ : ∃ b u, (a :: t).reverse = b :: u := by
      cases hr : (a :: t).reverse with
      | nil => simp at hr
      | cons b u => exact ⟨b, u, rfl⟩
    have hbns : isSpaceChar b = false := h2 b (by rw [hb]; simp)
    rw [hb, List.dropWhile_cons, hbns]
    simp only [Bool.false_eq_true, if_false]
    rw [← hb, List.reverse_reverse]

theorem pyStrip_digits_trailing_space (pre : Str) (j : Nat)
    (hpre1 : ∀ c ∈ pre.take 1, isSpaceChar c = false) (hpre0 : pre ≠ []) :
    pyStrip (pre ++ natToDigits j ++ [' ']) = pre ++ natToDigits j := by
  obtain ⟨a, t, rfl⟩ : ∃ a t, pre = a :: t := by
    cases pre with
    | nil => exact absurd rfl hpre0
    | cons a t => exact ⟨a, t, rfl⟩
  have ha : isSpaceChar a = false := hpre1 a (by simp)
  obtain ⟨b, u, hb⟩ : ∃ b u, (natToDigits j).reverse = b :: u := by
    cases hr : (natToDigits j).reverse with
    | nil => exact absurd (by simpa using hr) (natToDigits_ne_nil j)
    | cons b u => exact ⟨b, u, rfl⟩
  have hbdig : b.isDigit = true := by
    apply mem_natToDigits_isDigit j
    have hmem : b ∈ (natToDigits j).reverse := by rw [hb]; simp
    simpa using hmem
  have hbns : isSpaceChar b = false := not_space_of_digit b hbdig
  rw [pyStrip, List.cons_append, List.cons_append, List.dropWhile_cons, ha]
  simp only [Bool.false_eq_true, if_false]
  rw [show (a :: (t ++ natToDigits j ++ [' '])).reverse
      = ' ' :: ((natToDigits j).reverse ++ (a :: t).reverse) from by simp,
    List.dropWhile_cons]
  rw [show isSpaceChar ' ' = true from rfl]
  simp only [if_true]
  rw [hb, List.cons_append, List.dropWhile_cons, hbns]
  simp only [Bool.false_eq_true, if_false]
  rw [← List.cons_append, ← hb]
  simp

theorem descText_padded (j : Nat) :
    descText (paddedFixture j) =
      "Fixture ".data ++ natToDigits j ++
        "\n(as per annexure)\nHSN Code: 84790000".data := by
  have hne : (("Fixture ".data ++ natToDigits j : Str)).isEmpty = false := by
    rw [show ("Fixture ".data : Str) = 'F' :: "ixture ".data from rfl]
    simp
  have hstrip : pyStrip (("Fixture ".data ++ natToDigits j) ++ ' ' :: ([] : Str))
      = "Fixture ".data ++ natToDigits j := by
    have h2 := pyStrip_digits_trailing_space "Fixture ".data j
      (by intro c hc; simp at hc; subst hc; decide) (by decide)
    simpa [List.append_assoc] using h2
  simp only [descText, paddedFixture, hne]
  simp only [Bool.not_false, Bool.true_or, if_true, hstrip]
  rw [show (pyStrip [] : Str) = [] from rfl]
  simp only [List.isEmpty_nil, Bool.not_true, Bool.false_eq_true, if_false,
    show (("84790000".data : Str).isEmpty) = false from rfl, if_true, Bool.not_false]
  simp [List.intercalate, List.intersperse]

theorem map_blank_six (tmpl : TRow) (h : tmpl.length = 6) :
    tmpl.map (fun _ => blankCell) =
      [blankCell, blankCell, blankCell, blankCell, blankCell, blankCell] := by
  have e : tmpl.map (fun _ => blankCell) = List.replicate tmpl.length blankCell := by
    induction tmpl with
    | nil => rfl
    | cons a t ih => simp [ih, List.replicate_succ]
  rw [e, h]
  rfl

theorem newFixtureRow_padded (k : Nat) (tmpl : TRow) (h : tmpl.length = 6) :
    newFixtureRow posT (paddedFixture (k + 1)) k tmpl = appendedFixtureRow (k + 1) := by
  rw [newFixtureRow, map_blank_six tmpl h]
  simp only [writeFixtureData, posT, setColOpt, setCellText, placeImageCell,
    descText_padded (k + 1)]
  simp only [paddedFixture]
  simp only [List.set_cons_zero, List.set_cons_succ]
  rfl

theorem newWordsRow_padded (j : Nat) (tmpl : TRow) (h : tmpl.length = 6) :
    newWordsRow posT (paddedFixture j) tmpl = popWordsRow := by
  rw [newWordsRow, map_blank_six tmpl h]
  simp only [fillWordsRow, posT, setColOpt, setCellText, paddedFixture]
  simp only [List.set_cons_zero, List.set_cons_succ, List.append_nil]
  rfl

theorem paddedFixturesFrom_getElem (m : Nat) :
    ∀ j k, k < m → (paddedFixturesFrom m j)[k]? = some (paddedFixture (j + k)) := by
  induction m with
  | zero => intro j k h; omega
  | succ m ih =>
    intro j k h
    cases k with
    | zero => simp [paddedFixturesFrom]
    | succ k =>
      rw [paddedFixturesFrom]
      rw [List.getElem?_cons_succ, ih (j + 1) k (by omega)]
      congr 1
      congr 1
      omega

theorem paddedFixtures_getElem (n k : Nat) (h : k < n) :
    (paddedFixtures n)[k]? = some (paddedFixture (k + 1)) := by
  rw [paddedFixtures, paddedFixturesFrom_getElem n 1 k h]
  congr 1
  congr 1
  omega

theorem paddedFixturesFrom_length (m : Nat) :
    ∀ j, (paddedFixturesFrom m j).length = m := by
  induction m with
  | zero => intro j; rfl
  | succ m ih => intro j; simp [paddedFixturesFrom, ih]

theorem paddedFixtures_length (n : Nat) : (paddedFixtures n).length = n :=
  paddedFixturesFrom_length n 1

theorem addLoop_padded (n : Nat) :
    ∀ (idxs : List Nat) (acc : Table),
      (∀ i ∈ idxs, i < n) →
      idxs.foldl
        (fun t idx =>
          match (paddedFixtures n)[idx]? with
          | none => t
          | some f =>
            let t2 := t ++ [newFixtureRow posT f idx popRow1]
            match (some popWordsRow : Option TRow) with
            | none => t2
            | some tw => t2 ++ [newWordsRow posT f tw]) acc
      = acc ++ idxs.flatMap
          (fun idx => [appendedFixtureRow (idx + 1), popWordsRow]) := by
  intro idxs
  induction idxs with
  | nil => intro acc _; simp
  | cons i is ih =>
    intro acc hmem
    rw [List.foldl_cons]
    rw [show (paddedFixtures n)[i]? = some (paddedFixture (i + 1)) from
      paddedFixtures_getElem n i (hmem i (by simp))]
    simp only []
    rw [ih _ (fun x hx => hmem x (by simp [hx]))]
    rw [newFixtureRow_padded i popRow1 (by decide),
      newWordsRow_padded (i + 1) popWordsRow (by decide)]
    simp [List.flatMap_cons, List.append_assoc]

theorem headerScan_template : headerScan templatePricingTable = posT := by decide

set_option maxRecDepth 100000 in
theorem detect_template (n : Nat) (h2 : 2 ≤ n) :
    detectFixtureRows templatePricingTable n = [(1, 0), (3, 1)] := by
  have c1 : fixtureRowCond (rowSearchText tmplRow1) = true := by decide
  have c2 : fixtureRowCond (rowSearchText tmplRow2) = false := by decide
  have c3 : fixtureRowCond (rowSearchText tmplRow3) = true := by decide
  have c4 : fixtureRowCond (rowSearchText tmplRow4) = false := by decide
  have n1 : ∀ n k, fixtureRowNum (rowSearchText tmplRow1) n k = 0 := by
    intro n k
    unfold fixtureRowNum
    rw [show (containsSub (rowSearchText tmplRow1) (fixtureTag 1) ||
      containsSub (rowSearchText tmplRow1) "holding".data) = true from by decide]
    simp
  have n3 : ∀ n k, fixtureRowNum (rowSearchText tmplRow3) n k = 1 := by
    intro n k
    unfold fixtureRowNum
    rw [show (containsSub (rowSearchText tmplRow3) (fixtureTag 1) ||
      containsSub (rowSearchText tmplRow3) "holding".data) = false from by decide,
      show (containsSub (rowSearchText tmplRow3) (fixtureTag 2) ||
      containsSub (rowSearchText tmplRow3) "pulling".data) = true from by decide]
    simp
  have e : List.range' 1 (templatePricingTable.length - 1) = [1, 2, 3, 4] := rfl
  unfold detectFixtureRows
  rw [e]
  simp only [List.foldl_cons, List.foldl_nil,
    show templatePricingTable[1]? = some tmplRow1 from rfl,
    show templatePricingTable[2]? = some tmplRow2 from rfl,
    show templatePricingTable[3]? = some tmplRow3 from rfl,
    show templatePricingTable[4]? = some tmplRow4 from rfl]
  simp only [c1, c2, c3, c4, n1, n3, if_true, if_false, Bool.false_eq_true,
    if_pos (show 0 < n by omega), if_pos (show 1 < n by omega)]
  simp

set_option maxRecDepth 100000 in
theorem stage3_template (rest : List Fixture) :
    populateFixtureRows posT [(1, 0), (3, 1)]
      (paddedFixture 1 :: paddedFixture 2 :: rest) templatePricingTable = t3Template := by
  unfold populateFixtureRows
  simp only [List.foldl_cons, List.foldl_nil]
  simp only [List.length_cons]
  simp only [if_pos (show 0 < rest.length + 1 + 1 by omega),
    if_pos (show 1 < rest.length + 1 + 1 by omega)]
  simp only [show templatePricingTable[1]? = some tmplRow1 from rfl,
    List.getElem?_cons_zero, List.getElem?_cons_succ,
    show fillFixtureRow posT (paddedFixture 1) 0 tmplRow1 = popRow1 from by decide]
  simp only [show templatePricingTable.set 1 popRow1
      = [tmplRow0, popRow1, tmplRow2, tmplRow3, tmplRow4] from by decide]
  simp only [show ([tmplRow0, popRow1, tmplRow2, tmplRow3, tmplRow4] : Table)[3]?
      = some tmplRow3 from by decide,
    show fillFixtureRow posT (paddedFixture 2) 1 tmplRow3 = popRow3 from by decide]
  decide

set_option maxRecDepth 100000 in
theorem words_t3 : wordsRowIdxs t3Template = [2, 4] := by decide

set_option maxRecDepth 100000 in
theorem stage4_template (rest : List Fixture) :
    populateWordsRows posT (paddedFixture 1 :: paddedFixture 2 :: rest) t3Template
      = popTemplate := by
  unfold populateWordsRows
  rw [words_t3]
  simp only [List.enum, List.enumFrom, List.foldl_cons, List.foldl_nil, List.length_cons]
  simp only [if_pos (show 0 < rest.length + 1 + 1 by omega),
    if_pos (show 1 < rest.length + 1 + 1 by omega)]
  simp only [List.getElem?_cons_zero, List.getElem?_cons_succ,
    show t3Template[2]? = some tmplRow2 from by decide,
    show fillWordsRow posT (paddedFixture 1) tmplRow2 = popWordsRow from by decide]
  simp only [show t3Template.set 2 popWordsRow
      = [tmplRow0, popRow1, popWordsRow, popRow3, tmplRow4] from by decide]
  simp only [show ([tmplRow0, popRow1, popWordsRow, popRow3, tmplRow4] : Table)[4]?
      = some tmplRow4 from by decide,
    show fillWordsRow posT (paddedFixture 2) tmplRow4 = popWordsRow from by decide]
  decide

set_option maxRecDepth 100000 in
theorem populate_template_stable (f3 : Fixture) (rest : List Fixture) :
    populate_pricing_table_with_fixtures templatePricingTable
      (paddedFixture 1 :: paddedFixture 2 :: f3 :: rest) = popTemplate := by
  unfold populate_pricing_table_with_fixtures
  rw [show (paddedFixture 1 :: paddedFixture 2 :: f3 :: rest).isEmpty = false from rfl]
  simp only [Bool.false_eq_true, if_false, headerScan_template]
  rw [show (paddedFixture 1 :: paddedFixture 2 :: f3 :: rest).length
      = rest.length + 3 from by simp,
    detect_template (rest.length + 3) (by omega)]
  rw [stage3_template (f3 :: rest)]
  exact stage4_template (f3 :: rest)

theorem add_template (n : Nat) (h : 2 < n) :
    add_fixture_rows_to_table popTemplate (paddedFixtures n)
      = popTemplate ++ (List.range' 2 (n - 2)).flatMap
          (fun idx => [appendedFixtureRow (idx + 1), popWordsRow]) := by
  unfold add_fixture_rows_to_table
  rw [paddedFixtures_length, if_neg (by omega)]
  rw [show headerScan popTemplate = posT from by decide]
  rw [show popTemplate[1]? = some popRow1 from rfl,
    show popTemplate[2]? = some popWordsRow from rfl]
  exact addLoop_padded n (List.range' 2 (n - 2)) popTemplate
    (fun i hi => by
      have hm := List.mem_range'_1.1 hi
      omega)

theorem process_template (n : Nat) (h : 2 < n) :
    processPricingTable templatePricingTable (paddedFixtures n)
      = popTemplate ++ (List.range' 2 (n - 2)).flatMap
          (fun idx => [appendedFixtureRow (idx + 1), popWordsRow]) := by
  obtain ⟨m, rfl⟩ : ∃ m, n = m + 3 := ⟨n - 3, by omega⟩
  unfold processPricingTable
  rw [paddedFixtures_length, if_pos (by omega)]
  rw [show paddedFixtures (m + 3)
      = paddedFixture 1 :: paddedFixture 2 :: paddedFixture 3 :: paddedFixturesFrom m 4
    from rfl]
  rw [populate_template_stable (paddedFixture 3) (paddedFixturesFrom m 4)]
  rw [show paddedFixture 1 :: paddedFixture 2 :: paddedFixture 3 :: paddedFixturesFrom m 4
      = paddedFixtures (m + 3) from rfl]
  exact add_template (m + 3) (by omega)

theorem populateFixtureRows_length (pos : ColumnPositions) (frows : List (Nat × Nat))
    (fixtures : List Fixture) :
    ∀ tab, (populateFixtureRows pos frows fixtures tab).length = tab.length := by
  induction frows with
  | nil => intro tab; rfl
  | cons rf rest ih =>
    intro tab
    unfold populateFixtureRows
    rw [List.foldl_cons]
    have hstep :
        ∀ t : Table,
          ((if rf.2 < fixtures.length then
              match t[rf.1]?, fixtures[rf.2]? with
              | some row, some f => t.set rf.1 (fillFixtureRow pos f rf.2 row)
              | _, _ => t
            else t) : Table).length = t.length := by
      intro t
      split
      · split <;> simp
      · rfl
    have ih2 := ih ((if rf.2 < fixtures.length then
        match tab[rf.1]?, fixtures[rf.2]? with
        | some row, some f => tab.set rf.1 (fillFixtureRow pos f rf.2 row)
        | _, _ => tab
      else tab))
    unfold populateFixtureRows at ih2
    rw [ih2, hstep]

theorem wordsFold_length (pos : ColumnPositions) (fixtures : List Fixture)
    (L : List (Nat × Nat)) :
    ∀ tab : Table, (L.foldl
        (fun (t : Table) (ir : Nat × Nat) =>
          if ir.1 < fixtures.length then
            match t[ir.2]?, fixtures[ir.1]? with
            | some row, some f => t.set ir.2 (fillWordsRow pos f row)
            | _, _ => t
          else t) tab).length = tab.length := by
  induction L with
  | nil => intro tab; rfl
  | cons ir rest ih =>
    intro tab
    rw [List.foldl_cons]
    rw [ih]
    split
    · split <;> simp
    · rfl

theorem populateWordsRows_length (pos : ColumnPositions) (fixtures : List Fixture)
    (tab : Table) :
    (populateWordsRows pos fixtures tab).length = tab.length := by
  unfold populateWordsRows
  exact wordsFold_length pos fixtures ((wordsRowIdxs tab).enum) tab

theorem populate_length (tab : Table) (fixtures : List Fixture) :
    (populate_pricing_table_with_fixtures tab fixtures).length = tab.length := by
  unfold populate_pricing_table_with_fixtures
  split
  · rfl
  · rw [populateWordsRows_length, populateFixtureRows_length]

theorem pairs_flatMap_length (L : List Nat) :
    (L.flatMap (fun idx => [appendedFixtureRow (idx + 1), popWordsRow])).length
      = 2 * L.length := by
  induction L with
  | nil => rfl
  | cons i is ih => simp [List.flatMap_cons, ih]; omega

theorem serialColumn_append (t1 t2 : Table) :
    serialColumn (t1 ++ t2) = serialColumn t1 ++ serialColumn t2 := by
  simp [serialColumn]

theorem serialColumn_pairs (L : List Nat) :
    serialColumn (L.flatMap (fun idx => [appendedFixtureRow (idx + 1), popWordsRow]))
      = L.flatMap (fun idx => [natToDigits (idx + 1), []]) := by
  induction L with
  | nil => rfl
  | cons i is ih =>
    simp only [List.flatMap_cons]
    rw [serialColumn_append, ih]
    rfl

theorem count_serial_pairs (k : Nat) (hk : 1 ≤ k) (L : List Nat) :
    (L.flatMap (fun idx => [natToDigits (idx + 1), []])).count (natToDigits k)
      = L.count (k - 1) := by
  induction L with
  | nil => rfl
  | cons i is ih =>
    simp only [List.flatMap_cons, List.cons_append, List.nil_append,
      List.count_cons, ih]
    have hne : ¬(([] : Str) == natToDigits k) = true := by
      simp only [beq_iff_eq]
      exact fun he => natToDigits_ne_nil k he.symm
    have hiff : ((natToDigits (i + 1) == natToDigits k) = true) ↔ ((i == k - 1) = true) := by
      simp only [beq_iff_eq]
      constructor
      · intro he
        have := natToDigits_injective he
        omega
      · intro he
        congr 1
        omega
    by_cases hcase : (i == k - 1) = true
    · rw [if_pos (hiff.2 hcase), if_pos hcase, if_neg hne]
    · rw [if_neg (fun hx => hcase (hiff.1 hx)), if_neg hcase, if_neg hne]

theorem count_serial_prefix (k : Nat) (hk : 1 ≤ k) :
    (serialColumn popTemplate).count (natToDigits k)
      = if k ≤ 2 then 1 else 0 := by
  have he : serialColumn popTemplate
      = ["Sr.".data, natToDigits 1, [], natToDigits 2, []] := by decide
  rw [he]
  rcases Nat.lt_or_ge k 3 with h3 | h3
  · interval_cases k
    · rw [if_pos (by omega)]; decide
    · rw [if_pos (by omega)]; decide
  · rw [if_neg (by omega)]
    rw [List.count_eq_zero]
    intro hmem
    simp only [List.mem_cons, List.not_mem_nil, or_false] at hmem
    rcases hmem with h | h | h | h | h
    · have hS : 'S' ∈ natToDigits k := by rw [h]; simp
      have hd := mem_natToDigits_isDigit k 'S' hS
      simp [Char.isDigit] at hd
    · have hinj := natToDigits_injective (a := k) (b := 1) h
      omega
    · exact natToDigits_ne_nil k h
    · have hinj := natToDigits_injective (a := k) (b := 2) h
      omega
    · exact natToDigits_ne_nil k h

/-- C2: for every fixture count `n > 2`, after table population and row
growth the pricing table has exactly `2 × n` non-header rows (row count
`2n + 1` with the header), the serial numbers `1..n` each appear exactly
once in the serial column, and every appended pair's words row carries the
`"In Words: "` prefix from the description column on — in particular for
`n = 3` the table has 6 non-header rows and the third fixture's words row
starts with `"In Words: "`. -/
theorem C2_table_growth (n : Nat) (h : 2 < n) :
    (processPricingTable templatePricingTable (paddedFixtures n)).length = 2 * n + 1
    ∧ (∀ k, 1 ≤ k → k ≤ n →
        (serialColumn (processPricingTable templatePricingTable
          (paddedFixtures n))).count (natToDigits k) = 1)
    ∧ (∀ j, j < n - 2 →
        cellTextAt (processPricingTable templatePricingTable (paddedFixtures n))
            (6 + 2 * j) 1 = some ("In Words: ".data)
          ∧ "In Words: ".data.isPrefixOf ("In Words: ".data) = true) := by
  rw [process_template n h]
  refine ⟨?_, ?_, ?_⟩
  · rw [List.length_append, pairs_flatMap_length, List.length_range']
    have h5 : popTemplate.length = 5 := rfl
    omega
  · intro k hk1 hkn
    rw [serialColumn_append, List.count_append, serialColumn_pairs,
      count_serial_pairs k hk1, count_serial_prefix k hk1]
    have hnodup : (List.range' 2 (n - 2)).Nodup := List.nodup_range' 2 (n - 2) 1 Nat.one_pos
    rcases Nat.lt_or_ge k 3 with h3 | h3
    · rw [if_pos (by omega), List.count_eq_zero_of_not_mem (fun hmem => by
        have hx := List.mem_range'_1.1 hmem
        omega)]
    · have hmem : k - 1 ∈ List.range' 2 (n - 2) := by
        rw [List.mem_range'_1]
        omega
      rw [if_neg (by omega), List.count_eq_one_of_mem hnodup hmem]
  · intro j hj
    refine ⟨?_, by decide⟩
    unfold cellTextAt
    rw [show (6 + 2 * j) = popTemplate.length + (2 * j + 1) from by
      have h5 : popTemplate.length = 5 := rfl
      omega]
    rw [List.getElem?_append_right (by simp)]
    have hlen : popTemplate.length = 5 := rfl
    rw [show popTemplate.length + (2 * j + 1) - popTemplate.length = 2 * j + 1 from by omega]
    have hrow : ((List.range' 2 (n - 2)).flatMap
        (fun idx => [appendedFixtureRow (idx + 1), popWordsRow]))[2 * j + 1]?
        = some popWordsRow := by
      have hgen : ∀ (L : List Nat) (j : Nat), j < L.length →
          (L.flatMap (fun idx => [appendedFixtureRow (idx + 1), popWordsRow]))[2 * j + 1]?
            = some popWordsRow := by
        intro L
        induction L with
        | nil => intro j hj; simp at hj
        | cons i is ih =>
          intro j hj
          cases j with
          | zero =>
            simp only [List.flatMap_cons, List.cons_append, List.nil_append]
            rw [show 2 * 0 + 1 = 1 from rfl]
            rw [List.getElem?_cons_succ, List.getElem?_cons_zero]
          | succ j =>
            simp only [List.flatMap_cons, List.cons_append]
            rw [show 2 * (j + 1) + 1 = (2 * j + 1) + 1 + 1 from by omega]
            rw [List.getElem?_cons_succ, List.getElem?_cons_succ]
            exact ih j (by simpa using hj)
      exact hgen _ j (by simpa using hj)
    rw [hrow]
    rfl

/-- Witness for C2 at the scenario input `n = 3`: 7 rows in all (header
plus 6), serials 1, 2, 3 each once, and the third fixture's words row
(row 6, column 1) reads exactly `"In Words: "`. -/
theorem C2_table_growth_witness :
    (processPricingTable templatePricingTable (paddedFixtures 3)).length = 7
    ∧ (serialColumn (processPricingTable templatePricingTable
        (paddedFixtures 3))).count (natToDigits 1) = 1
    ∧ (serialColumn (processPricingTable templatePricingTable
        (paddedFixtures 3))).count (natToDigits 2) = 1
    ∧ (serialColumn (processPricingTable templatePricingTable
        (paddedFixtures 3))).count (natToDigits 3) = 1
    ∧ cellTextAt (processPricingTable templatePricingTable (paddedFixtures 3)) 6 1
        = some ("In Words: ".data) := by
  have h := C2_table_growth 3 (by omega)
  refine ⟨h.1, h.2.1 1 (by omega) (by omega), h.2.1 2 (by omega) (by omega),
    h.2.1 3 (by omega) (by omega), ?_⟩
  have h3 := h.2.2 0 (by omega)
  simpa using h3.1

/-- C7: for any fixture count at most the template's built-in capacity of
two, the orchestration performs no row cloning: population is in-place and
the row count after processing equals the original row count. -/
theorem C7_no_cloning (tab : Table) (fixtures : List Fixture) :
    (populate_pricing_table_with_fixtures tab fixtures).length = tab.length
    ∧ (fixtures.length ≤ 2 →
        add_fixture_rows_to_table tab fixtures = tab
        ∧ processPricingTable tab fixtures
            = populate_pricing_table_with_fixtures tab fixtures
        ∧ (processPricingTable tab fixtures).length = tab.length) := by
  refine ⟨populate_length tab fixtures, fun h => ?_⟩
  have hadd : add_fixture_rows_to_table tab fixtures = tab := by
    unfold add_fixture_rows_to_table
    rw [if_pos h]
  have hp : processPricingTable tab fixtures
      = populate_pricing_table_with_fixtures tab fixtures := by
    unfold processPricingTable
    rw [if_neg (by omega)]
  exact ⟨hadd, hp, by rw [hp]; exact populate_length tab fixtures⟩

/-- Witness for C7: two canonical fixtures on the five-row template leave
the row count at five. -/
theorem C7_no_cloning_witness :
    (processPricingTable templatePricingTable (paddedFixtures 2)).length = 5 := by
  have h := (C7_no_cloning templatePricingTable (paddedFixtures 2)).2 (by decide)
  rw [h.2.2]
  rfl

theorem insert_image_none_fails (cell : Cell) :
    (_insert_image_in_cell cell none).1 = false := rfl

theorem insert_image_fails (cell : Cell) (o : ImgOutcome)
    (h : o.pillow = false ∨ o.decodeOk = false ∨ o.embedOk = false) :
    (_insert_image_in_cell cell (some o)).1 = false := by
  obtain ⟨p, d, e⟩ := o
  cases p <;> cases d <;> cases e <;> simp_all [_insert_image_in_cell]

theorem insert_image_succeeds_iff (cell : Cell) (o : ImgOutcome) :
    (_insert_image_in_cell cell (some o)).1 = true ↔
      (o.pillow = true ∧ o.decodeOk = true ∧ o.embedOk = true) := by
  obtain ⟨p, d, e⟩ := o
  cases p <;> cases d <;> cases e <;> simp_all [_insert_image_in_cell]

theorem insert_image_success_cell (cell : Cell) (o : ImgOutcome)
    (h : (_insert_image_in_cell cell (some o)).1 = true) :
    (_insert_image_in_cell cell (some o)).2 = ⟨[], true⟩ := by
  obtain ⟨p, d, e⟩ := o
  cases p <;> cases d <;> cases e <;> simp_all [_insert_image_in_cell]

theorem placeImageCell_no_image (pos : ColumnPositions) (f : Fixture) (row : TRow)
    (c : Nat) (cell : Cell) (hc : pos.image = some c) (hcell : row[c]? = some cell)
    (hni : f.image = none) :
    ((placeImageCell pos f row)[c]?).map Cell.text = some ([] : Str) := by
  have hlt : c < row.length := by
    by_contra hge
    rw [List.getElem?_eq_none (by omega)] at hcell
    exact Option.noConfusion hcell
  unfold placeImageCell
  simp only [hc, hcell, hni]
  unfold setCellText
  rw [List.getElem?_set_self hlt]
  rfl

theorem placeImageCell_failure (pos : ColumnPositions) (f : Fixture) (row : TRow)
    (c : Nat) (cell : Cell) (o : ImgOutcome) (hc : pos.image = some c)
    (hcell : row[c]? = some cell) (hio : f.image = some o)
    (hfail : o.pillow = false ∨ o.decodeOk = false ∨ o.embedOk = false) :
    ((placeImageCell pos f row)[c]?).map Cell.text
      = some (imgPlaceholder f.name) := by
  have hlt : c < row.length := by
    by_contra hge
    rw [List.getElem?_eq_none (by omega)] at hcell
    exact Option.noConfusion hcell
  unfold placeImageCell
  simp only [hc, hcell, hio]
  simp only [insert_image_fails cell o hfail, Bool.false_eq_true, if_false]
  unfold setCellText
  rw [List.getElem?_set_self hlt]
  rfl

theorem placeImageCell_embedded_only_on_success (pos : ColumnPositions)
    (f : Fixture) (row : TRow) (c : Nat) (cell cell2 : Cell)
    (hc : pos.image = some c) (hcell : row[c]? = some cell)
    (hout : (placeImageCell pos f row)[c]? = some cell2) (himg : cell2.img = true) :
    ∃ o, f.image = some o
      ∧ o.pillow = true ∧ o.decodeOk = true ∧ o.embedOk = true := by
  have hlt : c < row.length := by
    by_contra hge
    rw [List.getElem?_eq_none (by omega)] at hcell
    exact Option.noConfusion hcell
  unfold placeImageCell at hout
  simp only [hc, hcell] at hout
  cases hio : f.image with
  | none =>
    simp only [hio] at hout
    unfold setCellText at hout
    rw [List.getElem?_set_self hlt] at hout
    have : cell2 = ⟨[], false⟩ := by
      cases hout
      rfl
    rw [this] at himg
    exact Bool.noConfusion himg
  | some o =>
    simp only [hio] at hout
    by_cases hsucc : (_insert_image_in_cell cell (some o)).1 = true
    · exact ⟨o, rfl, (insert_image_succeeds_iff cell o).1 hsucc⟩
    · rw [Bool.not_eq_true] at hsucc
      rw [hsucc] at hout
      simp only [Bool.false_eq_true, if_false] at hout
      unfold setCellText at hout
      rw [List.getElem?_set_self hlt] at hout
      have : cell2 = ⟨imgPlaceholder f.name, false⟩ := by
        cases hout
        rfl
      rw [this] at himg
      exact Bool.noConfusion himg

set_option maxRecDepth 1000000 in
/-- C3 counterexample: the claim says a fixture with no image payload gets
a bracketed placeholder containing its name written into the image column;
in fact `populate_pricing_table_with_fixtures` writes the empty string
into the image cell — the output cell text is `""`, which is not the
placeholder and does not contain the fixture's name. -/
theorem C3_counterexample :
    cellTextAt (populate_pricing_table_with_fixtures c3Table [c3Fixture]) 1 2
      = some ([] : Str)
    ∧ c3Fixture.image = none
    ∧ containsSub [] c3Fixture.name = false
    ∧ some ([] : Str) ≠ some (imgPlaceholder c3Fixture.name) := by
  refine ⟨by decide, rfl, by decide, by decide⟩

/-- C3 amended: the image cell of a fixture row receives the bracketed
placeholder `"[Image: <name>]"` exactly when an image payload is present
but fails to embed; a fixture with no image payload gets empty text in the
image cell, and an embedded picture appears only when decoding, conversion
and embedding all succeed. -/
theorem C3_image_cell_contents (pos : ColumnPositions) (f : Fixture) (row : TRow)
    (c : Nat) (cell : Cell) (hc : pos.image = some c) (hcell : row[c]? = some cell) :
    (f.image = none →
      ((placeImageCell pos f row)[c]?).map Cell.text = some ([] : Str))
    ∧ (∀ o, f.image = some o →
        (o.pillow = false ∨ o.decodeOk = false ∨ o.embedOk = false) →
        ((placeImageCell pos f row)[c]?).map Cell.text
          = some (imgPlaceholder f.name))
    ∧ (∀ cell2, (placeImageCell pos f row)[c]? = some cell2 → cell2.img = true →
        ∃ o, f.image = some o
          ∧ o.pillow = true ∧ o.decodeOk = true ∧ o.embedOk = true) :=
  ⟨fun hni => placeImageCell_no_image pos f row c cell hc hcell hni,
    fun o hio hfail => placeImageCell_failure pos f row c cell o hc hcell hio hfail,
    fun cell2 hout himg =>
      placeImageCell_embedded_only_on_success pos f row c cell cell2 hc hcell hout himg⟩

/-- Witness for the amended C3 on concrete data: no payload gives an empty
image cell, and a payload whose decode fails gives the placeholder. -/
theorem C3_image_cell_contents_witness :
    ((placeImageCell posT3 c3Fixture c3Row)[2]?).map Cell.text = some ([] : Str)
    ∧ ((placeImageCell posT3 { c3Fixture with
          image := some ⟨true, false, true⟩ } c3Row)[2]?).map Cell.text
        = some ("[Image: Widget]".data) := by
  constructor
  · exact (C3_image_cell_contents posT3 c3Fixture c3Row 2 (tcell "img".data)
      (by decide) (by decide)).1 rfl
  · have h := (C3_image_cell_contents posT3
      { c3Fixture with image := some ⟨true, false, true⟩ } c3Row 2
      (tcell "img".data) (by decide) (by decide)).2.1
      ⟨true, false, true⟩ rfl (Or.inr (Or.inl rfl))
    rw [h]
    rfl

/-- C4: `_insert_image_in_cell` reports every failure as the boolean
`False` instead of raising — missing/empty payloads, a failed Pillow
import, a failed decode/convert/re-encode, and a failed embed all yield
`False` (the model is a total function: each failure path in the source is
caught by its own handler plus a final catch-all) — and on `False` the
caller writes the bracketed `"[Image: <name>]"` placeholder into the cell,
so generation continues past a malformed image. -/
theorem C4_image_failures_degrade_to_placeholder :
    (∀ cell, (_insert_image_in_cell cell none).1 = false)
    ∧ (∀ cell o, (o.pillow = false ∨ o.decodeOk = false ∨ o.embedOk = false) →
        (_insert_image_in_cell cell (some o)).1 = false)
    ∧ (∀ (pos : ColumnPositions) (f : Fixture) (row : TRow) (c : Nat)
        (cell : Cell) (o : ImgOutcome), pos.image = some c → row[c]? = some cell →
        f.image = some o →
        (o.pillow = false ∨ o.decodeOk = false ∨ o.embedOk = false) →
        ((placeImageCell pos f row)[c]?).map Cell.text
          = some (imgPlaceholder f.name)) :=
  ⟨insert_image_none_fails,
    insert_image_fails,
    fun pos f row c cell o hc hcell hio hfail =>
      placeImageCell_failure pos f row c cell o hc hcell hio hfail⟩

/-- Witness for C4: a decode failure on a concrete cell yields `False` and
the concrete placeholder text. -/
theorem C4_image_failures_degrade_to_placeholder_witness :
    (_insert_image_in_cell (tcell "x".data) (some ⟨true, false, true⟩)).1 = false
    ∧ ((placeImageCell posT3 { c3Fixture with
          image := some ⟨true, false, true⟩ } c3Row)[2]?).map Cell.text
        = some ("[Image: Widget]".data) := by
  constructor
  · exact C4_image_failures_degrade_to_placeholder.2.1 (tcell "x".data)
      ⟨true, false, true⟩ (Or.inr (Or.inl rfl))
  · have h := C4_image_failures_degrade_to_placeholder.2.2 posT3
      { c3Fixture with image := some ⟨true, false, true⟩ } c3Row 2
      (tcell "img".data) ⟨true, false, true⟩ (by decide) (by decide) rfl
      (Or.inr (Or.inl rfl))
    rw [h]
    rfl

theorem interleaveIns_nil (s : Str) : interleaveIns [] s = s := by
  induction s with
  | nil => rfl
  | cons c rest ih => simp [interleaveIns, ih]

theorem pyReplaceF_self (o : Char) (os : Str) (f : Nat) :
    ∀ s : Str, s.length ≤ f → pyReplaceF (o :: os) (o :: os) f s = s := by
  induction f with
  | zero =>
    intro s h
    have : s = [] := List.length_eq_zero.1 (by omega)
    subst this
    rfl
  | succ f ih =>
    intro s h
    cases s with
    | nil => rfl
    | cons c rest =>
      rw [pyReplaceF]
      by_cases hpre : (o :: os).isPrefixOf (c :: rest) = true
      · rw [if_pos hpre]
        obtain ⟨t, ht⟩ := List.isPrefixOf_iff_prefix.1 hpre
        have hrest : rest = os ++ t := by
          have := ht
          simp only [List.cons_append, List.cons.injEq] at this
          exact this.2.symm
        have hdrop : rest.drop ((o :: os).length - 1) = t := by
          rw [hrest]
          simp
        rw [hdrop, ih t (by
          have h1 : rest.length = os.length + t.length := by simp [hrest]
          simp only [List.length_cons] at h
          omega)]
        rw [← ht]
      · rw [if_neg hpre]
        rw [ih rest (by simp at h; omega)]

theorem pyReplace_self (s old : Str) : pyReplace s old old = s := by
  cases old with
  | nil => simp [pyReplace, interleaveIns_nil]
  | cons o os => exact pyReplaceF_self o os s.length s le_rfl

theorem applyReplacements_filter_empty (repl : List (Str × Str)) :
    ∀ s, applyReplacements repl s
      = applyReplacements (repl.filter (fun p => !p.2.isEmpty)) s := by
  induction repl with
  | nil => intro s; rfl
  | cons p rest ih =>
    intro s
    rw [applyReplacements, List.foldl_cons, List.filter_cons]
    by_cases hp : p.2.isEmpty = true
    · rw [hp]
      simp only [Bool.not_true, Bool.false_and, Bool.false_eq_true, if_false]
      exact ih s
    · rw [Bool.not_eq_true] at hp
      rw [hp]
      simp only [Bool.not_false, if_true]
      rw [applyReplacements, List.foldl_cons]
      simp only [hp, Bool.not_false]
      exact ih _

theorem applyReplacements_filter_self (repl : List (Str × Str)) :
    ∀ s, applyReplacements repl s
      = applyReplacements (repl.filter (fun p => !(p.1 == p.2))) s := by
  induction repl with
  | nil => intro s; rfl
  | cons p rest ih =>
    intro s
    rw [applyReplacements, List.foldl_cons, List.filter_cons]
    by_cases hp : (p.1 == p.2) = true
    · have heq : p.1 = p.2 := by simpa using hp
      rw [hp]
      simp only [Bool.not_true, Bool.false_eq_true, if_false]
      have hstep :
          (if !p.2.isEmpty && containsSub s p.1 then pyReplace s p.1 p.2 else s) = s := by
        split
        · rw [← heq, pyReplace_self]
        · rfl
      rw [hstep]
      exact ih s
    · rw [Bool.not_eq_true] at hp
      rw [hp]
      simp only [Bool.not_false, if_true]
      rw [applyReplacements, List.foldl_cons]
      exact ih _

theorem replace_in_paragraph_congr (r1 r2 : List (Str × Str))
    (h : ∀ s, applyReplacements r1 s = applyReplacements r2 s) (p : Para) :
    replace_in_paragraph r1 p = replace_in_paragraph r2 p := by
  unfold replace_in_paragraph
  simp only [h]

theorem seek_and_replace_congr (r1 r2 : List (Str × Str))
    (h : ∀ s, applyReplacements r1 s = applyReplacements r2 s) (doc : DocM) :
    seek_and_replace doc r1 = seek_and_replace doc r2 := by
  have hpara : ∀ p, replace_in_paragraph r1 p = replace_in_paragraph r2 p :=
    replace_in_paragraph_congr r1 r2 h
  have hcell : ∀ c, replace_in_cell r1 c = replace_in_cell r2 c := by
    intro c
    unfold replace_in_cell
    exact List.map_congr_left (fun p _ => hpara p)
  have hrow : ∀ b row, replace_in_row r1 b row = replace_in_row r2 b row := by
    intro b row
    unfold replace_in_row
    refine List.map_congr_left (fun p _ => ?_)
    split
    · rfl
    · split
      · rfl
      · exact hcell p.2
  have htab : ∀ b t, replace_in_table r1 b t = replace_in_table r2 b t := by
    intro b t
    unfold replace_in_table
    exact List.map_congr_left (fun row _ => hrow b row)
  unfold seek_and_replace
  rw [List.map_congr_left (fun p _ => hpara p),
    List.map_congr_left (fun pt (_ : pt ∈ doc.tables.enum) => htab (pt.1 == 1) pt.2)]
  congr 1
  refine List.map_congr_left (fun sec _ => ?_)
  rw [List.map_congr_left (fun p _ => hpara p),
    List.map_congr_left (fun p _ => hpara p)]

theorem applyReplacements_all_empty (repl : List (Str × Str))
    (h : ∀ p ∈ repl, p.2 = ([] : Str)) : ∀ s, applyReplacements repl s = s := by
  induction repl with
  | nil => intro s; rfl
  | cons p rest ih =>
    intro s
    rw [applyReplacements, List.foldl_cons]
    have hp : p.2 = [] := h p (by simp)
    rw [hp]
    simp only [List.isEmpty_nil, Bool.not_true, Bool.false_and, Bool.false_eq_true,
      if_false]
    exact ih (fun q hq => h q (by simp [hq])) s

theorem seek_and_replace_id (doc : DocM) (repl : List (Str × Str))
    (h : ∀ p ∈ repl, p.2 = ([] : Str)) : seek_and_replace doc repl = doc := by
  have hap := applyReplacements_all_empty repl h
  have hpara : ∀ p, replace_in_paragraph repl p = p := by
    intro p
    unfold replace_in_paragraph
    simp [hap]
  have hcell : ∀ c : CellR, replace_in_cell repl c = c := by
    intro c
    unfold replace_in_cell
    rw [List.map_congr_left (fun p _ => hpara p)]
    exact List.map_id _
  have hrow : ∀ b row, replace_in_row repl b row = row := by
    intro b row
    unfold replace_in_row
    have he : row.enum.map (fun p =>
        if b && p.1 == 0 then p.2
        else if b && p.1 == 3 && rowSerialCheck row then p.2
        else replace_in_cell repl p.2) = row.enum.map (fun p => p.2) := by
      refine List.map_congr_left (fun p _ => ?_)
      split
      · rfl
      · split
        · rfl
        · exact hcell p.2
    rw [he]
    simp [List.enum_map_snd]
  have htab : ∀ b t, replace_in_table repl b t = t := by
    intro b t
    unfold replace_in_table
    rw [List.map_congr_left (fun row _ => hrow b row)]
    exact List.map_id _
  unfold seek_and_replace
  have hparas : doc.paragraphs.map (replace_in_paragraph repl) = doc.paragraphs := by
    rw [List.map_congr_left (fun p _ => hpara p)]
    exact List.map_id _
  have hsec : doc.sections.map (fun s =>
      { header := s.header.map (replace_in_paragraph repl)
        footer := s.footer.map (replace_in_paragraph repl) : DocSection })
      = doc.sections := by
    refine (List.map_congr_left (fun sec _ => ?_)).trans (List.map_id _)
    have hh : (sec.header.map (replace_in_paragraph repl)) = sec.header := by
      rw [List.map_congr_left (fun p _ => hpara p)]
      exact List.map_id _
    have hf : (sec.footer.map (replace_in_paragraph repl)) = sec.footer := by
      rw [List.map_congr_left (fun p _ => hpara p)]
      exact List.map_id _
    rw [hh, hf]
    rfl
  have htabs : doc.tables.enum.map
      (fun pt => replace_in_table repl (pt.1 == 1) pt.2) = doc.tables := by
    rw [List.map_congr_left
      (fun pt (_ : pt ∈ doc.tables.enum) => htab (pt.1 == 1) pt.2)]
    exact List.enum_map_snd doc.tables
  rw [hparas, hsec, htabs]

/-- C1: `seek_and_replace` applies a map entry only when its replacement
value is non-empty — the substitution result is unchanged when the
empty-valued entries are removed from the map, and a map whose values are
all empty leaves the document exactly as it was (empty submissions keep
the template defaults). -/
theorem C1_empty_replacements_not_applied (doc : DocM) (repl : List (Str × Str)) :
    seek_and_replace doc repl
      = seek_and_replace doc (repl.filter (fun p => !p.2.isEmpty))
    ∧ ((∀ p ∈ repl, p.2 = ([] : Str)) → seek_and_replace doc repl = doc) :=
  ⟨seek_and_replace_congr repl (repl.filter (fun p => !p.2.isEmpty))
      (applyReplacements_filter_empty repl) doc,
    fun h => seek_and_replace_id doc repl h⟩

/-- Witness for C1: an empty submitted customer name (value `""`) leaves
the template's default literal text untouched. -/
theorem C1_empty_replacements_not_applied_witness :
    (∀ p ∈ [("Mr. Mohak Dholakia".data, ([] : Str))], p.2 = ([] : Str))
    ∧ seek_and_replace c1Doc [("Mr. Mohak Dholakia".data, [])] = c1Doc :=
  ⟨by decide,
    (C1_empty_replacements_not_applied c1Doc [("Mr. Mohak Dholakia".data, [])]).2
      (by decide)⟩

/-- C6 counterexample: with no submitted prices/words (so the default
quote form and empty fixture price fields), the replacement map of
`generate_quotation` maps the first default-price template literal
(`key26879`) to itself —
a replacement value equal to its own search key, contradicting the claim
that no replacement value equals its own key. -/
theorem C6_counterexample :
    (key26879, key26879)
      ∈ buildReplacements defaultQuoteForm
          "Fixtures as per discussion".data
          "Design & manufacturing of fixtures as per discussion".data
          "Specifications as per discussion and drawings.".data
          [] [] [] []
    ∧ (key26879 : Str) = key26879 := by
  constructor
  · decide
  · rfl

/-- C6 amended: replacement values can equal their own search key (the
template default is reused whenever the submitted field is empty), but
every such identity entry is a no-op of the substitution: running
`seek_and_replace` with the map built by `generate_quotation` gives the
same document as running it with all identity entries removed, so these
entries never reintroduce their own keys. -/
theorem C6_identity_entries_are_noops (q : QuoteFormData)
    (inclusion scope specification f1p f1w f2p f2w : Str) (doc : DocM) :
    seek_and_replace doc
        (buildReplacements q inclusion scope specification f1p f1w f2p f2w)
      = seek_and_replace doc
        ((buildReplacements q inclusion scope specification f1p f1w f2p f2w).filter
          (fun p => !(p.1 == p.2))) :=
  seek_and_replace_congr _ _
    (applyReplacements_filter_self
      (buildReplacements q inclusion scope specification f1p f1w f2p f2w)) doc

theorem enumFrom_map_snd_fn {α β : Type} (f : α → β) :
    ∀ (n : Nat) (l : List α), (List.enumFrom n l).map (fun p => f p.2) = l.map f := by
  intro n l
  induction l generalizing n with
  | nil => rfl
  | cons a t ih => simp [List.enumFrom, ih]

theorem replace_in_row_getElem_zero (repl : List (Str × Str)) (row : List CellR) :
    (replace_in_row repl true row)[0]? = row[0]? := by
  unfold replace_in_row
  rw [List.getElem?_map, List.enum, List.getElem?_enumFrom]
  cases row[0]? with
  | none => rfl
  | some c => rfl

theorem replace_in_row_getElem_three (repl : List (Str × Str)) (row : List CellR)
    (hc : rowSerialCheck row = true) :
    (replace_in_row repl true row)[3]? = row[3]? := by
  unfold replace_in_row
  rw [List.getElem?_map, List.enum, List.getElem?_enumFrom]
  cases row[3]? with
  | none => rfl
  | some c =>
    simp only [Option.map_some']
    rw [show (true && (0 + 3 : Nat) == 0) = false from rfl]
    rw [show (true && (0 + 3 : Nat) == 3) = true from rfl]
    simp [hc]

theorem replace_in_table_false (repl : List (Str × Str)) (t : List (List CellR)) :
    replace_in_table repl false t
      = t.map (fun row => row.map (replace_in_cell repl)) := by
  unfold replace_in_table
  refine List.map_congr_left (fun row _ => ?_)
  unfold replace_in_row
  rw [show (fun p : Nat × CellR =>
      if false && p.1 == 0 then p.2
      else if false && p.1 == 3 && rowSerialCheck row then p.2
      else replace_in_cell repl p.2)
    = (fun p : Nat × CellR => replace_in_cell repl p.2) from by
      funext p
      simp]
  rw [List.enum]
  exact enumFrom_map_snd_fn (replace_in_cell repl) 0 row

/-- C8: during text substitution the second table of the document (the
pricing table) has its first column always left unchanged, and its column
3 (the image column) left unchanged on any row whose first cell holds a
purely numeric serial; every other table gets no such exemption — each of
its cells, in every column, is rewritten by the replacement pass. -/
theorem C8_pricing_table_exemptions (repl : List (Str × Str)) (doc : DocM)
    (t : List (List CellR)) (ht : doc.tables[1]? = some t) :
    (seek_and_replace doc repl).tables[1]? = some (replace_in_table repl true t)
    ∧ (∀ r : Nat, ((replace_in_table repl true t)[r]?.bind (fun row => row[0]?))
        = (t[r]?.bind (fun row => row[0]?)))
    ∧ (∀ (r : Nat) (row : List CellR), t[r]? = some row → rowSerialCheck row = true →
        ((replace_in_table repl true t)[r]?.bind (fun row2 : List CellR => row2[3]?)) = row[3]?)
    ∧ (∀ (i : Nat) (t2 : List (List CellR)), i ≠ 1 → doc.tables[i]? = some t2 →
        (seek_and_replace doc repl).tables[i]?
          = some (t2.map (fun row => row.map (replace_in_cell repl)))) := by
  refine ⟨?_, ?_, ?_, ?_⟩
  · show (doc.tables.enum.map
        (fun p => replace_in_table repl (p.1 == 1) p.2))[1]? = _
    rw [List.getElem?_map, List.getElem?_enum, ht]
    rfl
  · intro r
    unfold replace_in_table
    rw [List.getElem?_map]
    cases t[r]? with
    | none => rfl
    | some row =>
      simp only [Option.map_some', Option.some_bind]
      exact replace_in_row_getElem_zero repl row
  · intro r row hrow hc
    unfold replace_in_table
    rw [List.getElem?_map, hrow]
    simp only [Option.map_some', Option.some_bind]
    exact replace_in_row_getElem_three repl row hc
  · intro i t2 hi ht2
    show (doc.tables.enum.map
        (fun p => replace_in_table repl (p.1 == 1) p.2))[i]? = _
    rw [List.getElem?_map, List.getElem?_enum, ht2]
    simp only [Option.map_some', Option.some.injEq]
    rw [show (i == 1) = false from by simpa using hi]
    exact replace_in_table_false repl t2

/-- Witness for C8: in the concrete document, after substitution the
pricing table's serial cell and image cell keep their texts while the
non-pricing table's cell is rewritten. -/
theorem C8_pricing_table_exemptions_witness :
    c8Doc.tables[1]? = some c8Table1
    ∧ ((replace_in_table c8Repl true c8Table1)[0]?.bind (fun row => row[0]?))
        = (c8Table1[0]?.bind (fun row => row[0]?))
    ∧ ((replace_in_table c8Repl true c8Table1)[0]?.bind (fun row2 : List CellR => row2[3]?))
        = ([[[⟨"1".data, false⟩]], [[⟨"Rev A".data, false⟩]],
            [[⟨"Rev A".data, false⟩]], [[⟨"Rev A".data, false⟩]]] : List CellR)[3]?
    ∧ (seek_and_replace c8Doc c8Repl).tables[0]?
        = some (c8Table0.map (fun row => row.map (replace_in_cell c8Repl))) := by
  have h := C8_pricing_table_exemptions c8Repl c8Doc c8Table1 (by rfl)
  exact ⟨by rfl, h.2.1 0,
    h.2.2.1 0 _ (by rfl) (by decide),
    h.2.2.2 0 c8Table0 (by decide) (by rfl)⟩

theorem inj_bounded_mem_length {α : Type} [DecidableEq α] (g : Nat → α)
    (l : List α) (m : Nat) (hinj : ∀ a b, g a = g b → a = b)
    (hmem : ∀ j, j < m → g j ∈ l) : m ≤ l.length := by
  have hcard : ((Finset.range m).image g).card = m := by
    rw [Finset.card_image_of_injOn (fun a _ b _ h => hinj a b h)]
    exact Finset.card_range m
  have hsub : (Finset.range m).image g ⊆ l.toFinset := by
    intro x hx
    rw [Finset.mem_image] at hx
    obtain ⟨j, hj, rfl⟩ := hx
    rw [List.mem_toFinset]
    exact hmem j (Finset.mem_range.1 hj)
  have hle := Finset.card_le_card hsub
  rw [hcard] at hle
  exact hle.trans l.toFinset_card_le

theorem fmtInvoice_inj (fy : Str) {a b : Nat}
    (h : fmtInvoice a fy = fmtInvoice b fy) : a = b := by
  unfold fmtInvoice at h
  have hlen : (padSeq a).length = (padSeq b).length := by
    have := congrArg List.length h
    simp only [List.length_append] at this
    omega
  have h2 : padSeq a ++ '/' :: fy = padSeq b ++ '/' :: fy := by
    rw [List.append_assoc, List.append_assoc] at h
    exact (List.append_inj h rfl).2
  exact padSeq_injective (List.append_inj h2 hlen).1

theorem ensureUniqueLoop_mem (stored : List Str) (fy : Str) :
    ∀ (f seq : Nat), ensureUniqueLoop stored fy f seq ∈ stored →
      ∀ j, j ≤ f → fmtInvoice (seq + j) fy ∈ stored := by
  intro f
  induction f with
  | zero =>
    intro seq h j hj
    interval_cases j
    simpa using h
  | succ f ih =>
    intro seq h j hj
    rw [ensureUniqueLoop] at h
    by_cases hc : fmtInvoice seq fy ∈ stored
    · rw [if_pos hc] at h
      cases j with
      | zero => simpa using hc
      | succ j =>
        have := ih (seq + 1) h j (by omega)
        rw [show seq + 1 + j = seq + (j + 1) from by omega] at this
        exact this
    · rw [if_neg hc] at h
      exact absurd h hc

theorem ensureUniqueLoop_shape (stored : List Str) (fy : Str) :
    ∀ (f seq : Nat), ∃ j, ensureUniqueLoop stored fy f seq
      = fmtInvoice (seq + j) fy := by
  intro f
  induction f with
  | zero => exact fun seq => ⟨0, rfl⟩
  | succ f ih =>
    intro seq
    rw [ensureUniqueLoop]
    by_cases hc : fmtInvoice seq fy ∈ stored
    · rw [if_pos hc]
      obtain ⟨j, hj⟩ := ih (seq + 1)
      exact ⟨j + 1, by rw [hj]; congr 1; omega⟩
    · rw [if_neg hc]
      exact ⟨0, rfl⟩

theorem genInvoiceCore_not_stored (stored : List Str) (fy : Str) :
    genInvoiceCore stored fy ∉ stored := by
  intro hmem
  have hall := ensureUniqueLoop_mem stored fy (stored.length + 1)
    (initialSeq stored fy) hmem
  have hbound := inj_bounded_mem_length
    (fun j => fmtInvoice (initialSeq stored fy + j) fy) stored (stored.length + 2)
    (fun a b h => by
      have := fmtInvoice_inj fy h
      omega)
    (fun j hj => hall j (by omega))
  omega

/-- C9 amended: `generate_invoice_number` returns a string of the form
`KEC/NNN/FY` for some sequence `NNN` at least the successor of the
sequence parsed from the latest stored invoice of the fiscal year (1 if
none parses); when that plain successor is not already stored the result
is exactly it, and in every case — thanks to the post-increment recheck
loop — the returned number differs from every invoice number stored at
the time of the call.  (The `transaction.atomic()` wrapper is modelled by
the function reading one consistent snapshot of the store.) -/
theorem C9_invoice_number_generation (nowYear nowMonth : Nat) (stored : List Str) :
    generate_invoice_number nowYear nowMonth stored ∉ stored
    ∧ (∃ s, initialSeq stored (fiscalYearStr nowYear nowMonth) ≤ s ∧
        generate_invoice_number nowYear nowMonth stored
          = fmtInvoice s (fiscalYearStr nowYear nowMonth))
    ∧ (fmtInvoice (initialSeq stored (fiscalYearStr nowYear nowMonth))
          (fiscalYearStr nowYear nowMonth) ∉ stored →
        generate_invoice_number nowYear nowMonth stored
          = fmtInvoice (initialSeq stored (fiscalYearStr nowYear nowMonth))
            (fiscalYearStr nowYear nowMonth)) := by
  refine ⟨genInvoiceCore_not_stored stored (fiscalYearStr nowYear nowMonth), ?_, ?_⟩
  · obtain ⟨j, hj⟩ := ensureUniqueLoop_shape stored (fiscalYearStr nowYear nowMonth)
      (stored.length + 1) (initialSeq stored (fiscalYearStr nowYear nowMonth))
    exact ⟨initialSeq stored (fiscalYearStr nowYear nowMonth) + j, by omega, hj⟩
  · intro hfree
    show ensureUniqueLoop _ _ (stored.length + 1) _ = _
    rw [ensureUniqueLoop, if_neg hfree]

/-- Witness for C9 (amended) on a store holding `KEC/005/2526` in October
2025: the generated number is `KEC/006/2526` and is not stored. -/
theorem C9_invoice_number_generation_witness :
    generate_invoice_number 2025 10 ["KEC/005/2526".data] = "KEC/006/2526".data
    ∧ "KEC/006/2526".data ∉ ["KEC/005/2526".data] := by
  have h := C9_invoice_number_generation 2025 10 ["KEC/005/2526".data]
  have h3 : generate_invoice_number 2025 10 ["KEC/005/2526".data]
      = "KEC/006/2526".data := (h.2.2 (by decide)).trans (by decide)
  exact ⟨h3, h3 ▸ h.1⟩

set_option maxRecDepth 100000 in
/-- C9 counterexample: with stored numbers `KEC/9/2526` and `KEC/010/2526`
(October 2025, fiscal year `2526`), the latest stored invoice in string
order is `KEC/9/2526`, whose parsed successor is 10 — but the recheck
loop finds `KEC/010/2526` already stored and returns `KEC/011/2526`, so
the returned sequence is NOT the successor of the sequence parsed from
the latest stored invoice, refuting the claim as stated. -/
theorem C9_counterexample :
    generate_invoice_number 2025 10 ["KEC/9/2526".data, "KEC/010/2526".data]
      = "KEC/011/2526".data
    ∧ latestStr ((["KEC/9/2526".data, "KEC/010/2526".data] : List Str).filter
        (fun s => "KEC/".data.isPrefixOf s && ('/' :: "2526".data).isSuffixOf s))
      = some "KEC/9/2526".data
    ∧ seqFromLatest "KEC/9/2526".data "2526".data = 10
    ∧ fmtInvoice 10 "2526".data = "KEC/010/2526".data
    ∧ generate_invoice_number 2025 10 ["KEC/9/2526".data, "KEC/010/2526".data]
      ≠ fmtInvoice 10 "2526".data := by
  refine ⟨by decide, by decide, by decide, by decide, by decide⟩

theorem fixtureKey_inj (field : Str) {i j : Nat}
    (h : fixtureKey i field = fixtureKey j field) : i = j := by
  unfold fixtureKey at h
  have hlen : (natToDigits i).length = (natToDigits j).length := by
    have := congrArg List.length h
    simp only [List.length_append] at this
    omega
  have h2 : natToDigits i ++ ("][".data ++ field ++ "]".data)
      = natToDigits j ++ ("][".data ++ field ++ "]".data) := by
    have h3 : "fixtures[".data ++ (natToDigits i ++ ("][".data ++ field ++ "]".data))
        = "fixtures[".data ++ (natToDigits j ++ ("][".data ++ field ++ "]".data)) := by
      simpa [List.append_assoc] using h
    exact (List.append_inj h3 rfl).2
  exact natToDigits_injective (List.append_inj h2 hlen).1

theorem postHas_iff (post : PostData) (k : Str) :
    postHas post k = true ↔ ∃ p ∈ post, p.1 = k := by
  unfold postHas lookupPost
  rw [Option.isSome_map']
  rw [List.find?_isSome]
  constructor
  · rintro ⟨p, hp, he⟩
    exact ⟨p, hp, by simpa using he⟩
  · rintro ⟨p, hp, he⟩
    exact ⟨p, hp, by simpa using he⟩

theorem presentKeys_le_length (post : PostData) (k : Nat)
    (hk : ∀ j, j < k → postHas post (fixtureKey j "name".data) = true) :
    k ≤ post.length := by
  have h := inj_bounded_mem_length (fun j => fixtureKey j "name".data)
    (post.map Prod.fst) k
    (fun a b h => fixtureKey_inj "name".data h)
    (fun j hj => by
      obtain ⟨p, hp, he⟩ := (postHas_iff post (fixtureKey j "name".data)).1 (hk j hj)
      rw [List.mem_map]
      exact ⟨p, hp, he⟩)
  simpa using h

theorem collectFixturesLoop_eq (post : PostData) (files : FilesData) :
    ∀ (m fuel i : Nat), m < fuel →
      (∀ j, j < m → postHas post (fixtureKey (i + j) "name".data) = true) →
      postHas post (fixtureKey (i + m) "name".data) = false →
      collectFixturesLoop post files fuel i
        = (List.range m).map (fun j => fixtureFromPost post files (i + j)) := by
  intro m
  induction m with
  | zero =>
    intro fuel i hfuel _ habs
    obtain ⟨f, rfl⟩ := Nat.exists_eq_succ_of_ne_zero (show fuel ≠ 0 by omega)
    rw [collectFixturesLoop]
    rw [show i + 0 = i from by omega] at habs
    rw [habs]
    simp
  | succ m ih =>
    intro fuel i hfuel hpres habs
    obtain ⟨f, rfl⟩ := Nat.exists_eq_succ_of_ne_zero (show fuel ≠ 0 by omega)
    rw [collectFixturesLoop]
    have h0 : postHas post (fixtureKey i "name".data) = true := by
      have := hpres 0 (by omega)
      simpa using this
    rw [h0]
    simp only [if_true]
    rw [ih f (i + 1) (by omega)
      (fun j hj => by
        have := hpres (j + 1) (by omega)
        rw [show i + (j + 1) = i + 1 + j from by omega] at this
        exact this)
      (by rw [show i + 1 + m = i + (m + 1) from by omega]; exact habs)]
    rw [List.range_succ_eq_map]
    simp only [List.map_cons, List.map_map]
    congr 1
    refine List.map_congr_left (fun j _ => ?_)
    show fixtureFromPost post files (i + 1 + j) = fixtureFromPost post files (i + j.succ)
    congr 1
    omega

/-- C10: `generate_quotation` builds its fixture list by reading
consecutive indices from 0 and stopping at the first index whose
`fixtures[i][name]` key is absent from the POST data; the collected list
is exactly the fixtures at indices `0..k-1` for that first absent index
`k`, so any fixture fields submitted at indices past a gap are ignored
and never enter the list. -/
theorem C10_collection_stops_at_first_gap (post : PostData) (files : FilesData)
    (k : Nat) (hpresent : ∀ j, j < k → postHas post (fixtureKey j "name".data) = true)
    (habsent : postHas post (fixtureKey k "name".data) = false) :
    collectFixtures post files
      = (List.range k).map (fun j => fixtureFromPost post files j)
    ∧ (collectFixtures post files).length = k := by
  have hk : k ≤ post.length := presentKeys_le_length post k hpresent
  have he := collectFixturesLoop_eq post files k (post.length + 1) 0 (by omega)
    (fun j hj => by simpa using hpresent j hj)
    (by simpa using habsent)
  unfold collectFixtures
  rw [he]
  refine ⟨List.map_congr_left (fun j _ => by rw [Nat.zero_add]), ?_⟩
  simp

/-- Witness for C10: with name keys at indices 0 and 2 only, collection
stops at the gap — a single fixture is collected even though index 2 has
submitted data. -/
theorem C10_collection_stops_at_first_gap_witness :
    collectFixtures c10Post [] = [fixtureFromPost c10Post [] 0]
    ∧ (collectFixtures c10Post []).length = 1
    ∧ postHas c10Post (fixtureKey 2 "name".data) = true := by
  have h := C10_collection_stops_at_first_gap c10Post [] 1
    (by
      intro j hj
      interval_cases j
      decide)
    (by decide)
  exact ⟨by rw [h.1]; rfl, h.2, by decide⟩

theorem foldl_fun_congr {α β : Type} (f g : α → β → α) (h : ∀ a b, f a b = g a b) :
    ∀ (l : List β) (a : α), l.foldl f a = l.foldl g a := by
  intro l
  induction l with
  | nil => intro a; rfl
  | cons x xs ih =>
    intro a
    rw [List.foldl_cons, List.foldl_cons, h]
    exact ih _

theorem fillFixtureRow_eraseTotal (pos : ColumnPositions) (f : Fixture) (i : Nat)
    (row : TRow) (h : pos.amount = none) :
    fillFixtureRow pos (eraseTotal f) i row = fillFixtureRow pos f i row := by
  simp only [fillFixtureRow, writeFixtureData, clearMatchedNonImage, h, setColOpt,
    descText, placeImageCell, eraseTotal]

theorem fillFixtureRow_eraseQty (pos : ColumnPositions) (f : Fixture) (i : Nat)
    (row : TRow) (h : pos.qty = none) :
    fillFixtureRow pos (eraseQty f) i row = fillFixtureRow pos f i row := by
  simp only [fillFixtureRow, writeFixtureData, clearMatchedNonImage, h, setColOpt,
    descText, placeImageCell, eraseQty]

theorem fillFixtureRow_erasePrice (pos : ColumnPositions) (f : Fixture) (i : Nat)
    (row : TRow) (h : pos.rate = none) :
    fillFixtureRow pos (erasePrice f) i row = fillFixtureRow pos f i row := by
  simp only [fillFixtureRow, writeFixtureData, clearMatchedNonImage, h, setColOpt,
    descText, placeImageCell, erasePrice]

theorem fillFixtureRow_eraseUnit (pos : ColumnPositions) (f : Fixture) (i : Nat)
    (row : TRow) (h : pos.per = none) :
    fillFixtureRow pos (eraseUnit f) i row = fillFixtureRow pos f i row := by
  simp only [fillFixtureRow, writeFixtureData, clearMatchedNonImage, h, setColOpt,
    descText, placeImageCell, eraseUnit]

theorem fillFixtureRow_eraseImage (pos : ColumnPositions) (f : Fixture) (i : Nat)
    (row : TRow) (h : pos.image = none) :
    fillFixtureRow pos (eraseImage f) i row = fillFixtureRow pos f i row := by
  simp only [fillFixtureRow, writeFixtureData, clearMatchedNonImage, h, setColOpt,
    descText, placeImageCell, eraseImage]

theorem fillFixtureRow_eraseDescFields (pos : ColumnPositions) (f : Fixture) (i : Nat)
    (row : TRow) (h : pos.description = none) :
    fillFixtureRow pos (eraseDescFields f) i row = fillFixtureRow pos f i row := by
  simp only [fillFixtureRow, writeFixtureData, clearMatchedNonImage, h, setColOpt,
    descText, placeImageCell, eraseDescFields]

theorem fillWordsRow_words_eq (pos : ColumnPositions) (f g : Fixture)
    (hw : g.words = f.words) (row : TRow) :
    fillWordsRow pos g row = fillWordsRow pos f row := by
  simp only [fillWordsRow, hw]

theorem populateFixtureRows_map_congr (pos : ColumnPositions)
    (frows : List (Nat × Nat)) (fixtures : List Fixture) (tab : Table)
    (e : Fixture → Fixture)
    (hfill : ∀ (f : Fixture) (i : Nat) (row : TRow),
      fillFixtureRow pos (e f) i row = fillFixtureRow pos f i row) :
    populateFixtureRows pos frows (fixtures.map e) tab
      = populateFixtureRows pos frows fixtures tab := by
  unfold populateFixtureRows
  refine foldl_fun_congr _ _ (fun t rf => ?_) frows tab
  rw [List.length_map, List.getElem?_map]
  cases t[rf.1]? <;> cases fixtures[rf.2]? <;> simp [hfill]

theorem populateWordsRows_map_congr (pos : ColumnPositions)
    (fixtures : List Fixture) (tab : Table) (e : Fixture → Fixture)
    (hw : ∀ f, (e f).words = f.words) :
    populateWordsRows pos (fixtures.map e) tab
      = populateWordsRows pos fixtures tab := by
  unfold populateWordsRows
  refine foldl_fun_congr _ _ (fun t ir => ?_) (wordsRowIdxs tab).enum tab
  rw [List.length_map, List.getElem?_map]
  cases t[ir.2]? with
  | none => cases fixtures[ir.1]? <;> simp
  | some row =>
    cases fixtures[ir.1]? with
    | none => simp
    | some f => simp [fillWordsRow_words_eq pos f (e f) (hw f) row]

theorem populate_map_congr (tab : Table) (fixtures : List Fixture)
    (e : Fixture → Fixture)
    (hfill : ∀ (f : Fixture) (i : Nat) (row : TRow),
      fillFixtureRow (headerScan tab) (e f) i row
        = fillFixtureRow (headerScan tab) f i row)
    (hw : ∀ f, (e f).words = f.words) :
    populate_pricing_table_with_fixtures tab (fixtures.map e)
      = populate_pricing_table_with_fixtures tab fixtures := by
  have hie : (fixtures.map e).isEmpty = fixtures.isEmpty := by
    cases fixtures <;> rfl
  unfold populate_pricing_table_with_fixtures
  rw [hie, List.length_map]
  by_cases hfe : fixtures.isEmpty = true
  · rw [hfe]
    rfl
  · rw [Bool.not_eq_true] at hfe
    rw [hfe]
    simp only [Bool.false_eq_true, if_false]
    rw [populateFixtureRows_map_congr _ _ _ _ e hfill,
      populateWordsRows_map_congr _ _ _ e hw]

theorem setColOpt_frame (row : TRow) (o : Option Nat) (v : Str) (c : Nat)
    (h : o ≠ some c) : (setColOpt row o v)[c]? = row[c]? := by
  cases o with
  | none => rfl
  | some c2 =>
    have hne : c2 ≠ c := fun he => h (by rw [he])
    unfold setColOpt setCellText
    exact List.getElem?_set_ne hne

theorem placeImageCell_frame (pos : ColumnPositions) (f : Fixture) (row : TRow)
    (c : Nat) (h : pos.image ≠ some c) :
    (placeImageCell pos f row)[c]? = row[c]? := by
  unfold placeImageCell
  cases hpi : pos.image with
  | none => rfl
  | some ci =>
    have hne : ci ≠ c := fun he => h (hpi.trans (by rw [he]))
    cases hrc : row[ci]? with
    | none => simp only [hrc]
    | some cell =>
      simp only [hrc]
      cases f.image with
      | none =>
        unfold setCellText
        exact List.getElem?_set_ne hne
      | some o =>
        by_cases hs : (_insert_image_in_cell cell (some o)).1 = true
        · simp only [hs, if_true]
          exact List.getElem?_set_ne hne
        · rw [Bool.not_eq_true] at hs
          simp only [hs, Bool.false_eq_true, if_false]
          unfold setCellText
          exact List.getElem?_set_ne hne

theorem fillFixtureRow_frame (pos : ColumnPositions) (f : Fixture) (i : Nat)
    (row : TRow) (c : Nat) (h : ¬ matchedCol pos c) :
    (fillFixtureRow pos f i row)[c]? = row[c]? := by
  unfold matchedCol at h
  push_neg at h
  obtain ⟨hsr, hde, him, hqt, hra, hpe, ham⟩ := h
  unfold fillFixtureRow writeFixtureData clearMatchedNonImage
  rw [setColOpt_frame _ _ _ _ ham, setColOpt_frame _ _ _ _ hpe,
    setColOpt_frame _ _ _ _ hra, setColOpt_frame _ _ _ _ hqt,
    placeImageCell_frame _ _ _ _ him, setColOpt_frame _ _ _ _ hde,
    setColOpt_frame _ _ _ _ hsr, setColOpt_frame _ _ _ _ ham,
    setColOpt_frame _ _ _ _ hpe, setColOpt_frame _ _ _ _ hra,
    setColOpt_frame _ _ _ _ hqt, setColOpt_frame _ _ _ _ hde,
    setColOpt_frame _ _ _ _ hsr]

/-- C5: a column role is written only when its keyword was matched in the
header scan.  Whenever the scan leaves a role unmatched, populating the
table gives the same result as populating it with that role's data blanked
on every fixture (amount/total, qty, rate/price, per/unit, image,
description block) — so no data for an unmatched role reaches any cell —
and a single fixture-row fill leaves every cell outside the matched
columns untouched (an unmatched role is skipped, never defaulted to column
index 0). -/
theorem C5_unmatched_roles_skipped (tab : Table) (fixtures : List Fixture) :
    ((headerScan tab).amount = none →
      populate_pricing_table_with_fixtures tab fixtures
        = populate_pricing_table_with_fixtures tab (fixtures.map eraseTotal))
    ∧ ((headerScan tab).qty = none →
      populate_pricing_table_with_fixtures tab fixtures
        = populate_pricing_table_with_fixtures tab (fixtures.map eraseQty))
    ∧ ((headerScan tab).rate = none →
      populate_pricing_table_with_fixtures tab fixtures
        = populate_pricing_table_with_fixtures tab (fixtures.map erasePrice))
    ∧ ((headerScan tab).per = none →
      populate_pricing_table_with_fixtures tab fixtures
        = populate_pricing_table_with_fixtures tab (fixtures.map eraseUnit))
    ∧ ((headerScan tab).image = none →
      populate_pricing_table_with_fixtures tab fixtures
        = populate_pricing_table_with_fixtures tab (fixtures.map eraseImage))
    ∧ ((headerScan tab).description = none →
      populate_pricing_table_with_fixtures tab fixtures
        = populate_pricing_table_with_fixtures tab (fixtures.map eraseDescFields))
    ∧ (∀ c, ¬ matchedCol (headerScan tab) c → ∀ (f : Fixture) (i : Nat) (row : TRow),
        (fillFixtureRow (headerScan tab) f i row)[c]? = row[c]?) := by
  refine ⟨fun h => ?_, fun h => ?_, fun h => ?_, fun h => ?_, fun h => ?_,
    fun h => ?_, fun c hc f i row => fillFixtureRow_frame _ f i row c hc⟩
  · exact (populate_map_congr tab fixtures eraseTotal
      (fun f i row => fillFixtureRow_eraseTotal _ f i row h) (fun f => rfl)).symm
  · exact (populate_map_congr tab fixtures eraseQty
      (fun f i row => fillFixtureRow_eraseQty _ f i row h) (fun f => rfl)).symm
  · exact (populate_map_congr tab fixtures erasePrice
      (fun f i row => fillFixtureRow_erasePrice _ f i row h) (fun f => rfl)).symm
  · exact (populate_map_congr tab fixtures eraseUnit
      (fun f i row => fillFixtureRow_eraseUnit _ f i row h) (fun f => rfl)).symm
  · exact (populate_map_congr tab fixtures eraseImage
      (fun f i row => fillFixtureRow_eraseImage _ f i row h) (fun f => rfl)).symm
  · exact (populate_map_congr tab fixtures eraseDescFields
      (fun f i row => fillFixtureRow_eraseDescFields _ f i row h) (fun f => rfl)).symm

set_option maxRecDepth 100000 in
/-- Witness for C5 on a concrete table whose header matches only the
serial keyword: populating is unaffected by blanking any other role's
data, and the fixture-row fill leaves an unmatched column's cell alone. -/
theorem C5_unmatched_roles_skipped_witness :
    (populate_pricing_table_with_fixtures c5Tab [c5Fix]
        = populate_pricing_table_with_fixtures c5Tab ([c5Fix].map eraseTotal)
      ∧ populate_pricing_table_with_fixtures c5Tab [c5Fix]
        = populate_pricing_table_with_fixtures c5Tab ([c5Fix].map eraseQty)
      ∧ populate_pricing_table_with_fixtures c5Tab [c5Fix]
        = populate_pricing_table_with_fixtures c5Tab ([c5Fix].map erasePrice)
      ∧ populate_pricing_table_with_fixtures c5Tab [c5Fix]
        = populate_pricing_table_with_fixtures c5Tab ([c5Fix].map eraseUnit)
      ∧ populate_pricing_table_with_fixtures c5Tab [c5Fix]
        = populate_pricing_table_with_fixtures c5Tab ([c5Fix].map eraseImage)
      ∧ populate_pricing_table_with_fixtures c5Tab [c5Fix]
        = populate_pricing_table_with_fixtures c5Tab ([c5Fix].map eraseDescFields))
    ∧ (fillFixtureRow (headerScan c5Tab) c5Fix 0 c5Row)[1]? = c5Row[1]? := by
  have h := C5_unmatched_roles_skipped c5Tab [c5Fix]
  exact ⟨⟨h.1 (by decide), h.2.1 (by decide), h.2.2.1 (by decide),
      h.2.2.2.1 (by decide), h.2.2.2.2.1 (by decide), h.2.2.2.2.2.1 (by decide)⟩,
    h.2.2.2.2.2.2 1 (by unfold matchedCol; decide) c5Fix 0 c5Row⟩
